import Mathlib

/-!
Verification development for the SIEM-Log-Analysis repository
(`src/sieman/parser.py` and `src/sieman/ingest.py`).

The Python code is shallowly embedded: regular expressions are translated
into explicit scanning functions over `List Char` that implement the exact
matching semantics (greedy quantifiers, leftmost match, Python `re.match`
anchoring, word boundaries) of each concrete pattern appearing in the source;
dictionaries become association lists; the wall clock (`datetime.now()`)
becomes an explicit `now : String` parameter; `re.IGNORECASE` is modelled by
ASCII lowering of the subject (all pattern literals are lowercase ASCII and
the word-character class is stable under ASCII case folding).
-/

/-- ASCII whitespace, the characters matched by the regex class `\s`
and stripped by Python `str.strip()` (ASCII fragment). -/
def isSpaceC (c : Char) : Bool :=
  c = ' ' || c = '\t' || c = '\n' || c = '\r' || c = '\x0b' || c = '\x0c'

/-- Word characters for the regex word-boundary assertion `\b` (ASCII `\w`). -/
def isWordC (c : Char) : Bool :=
  c.isAlpha || c.isDigit || c = '_'

/-- Hexadecimal digit, the class `[0-9a-fA-F]` of the IPv6 pattern. -/
def isHexC (c : Char) : Bool :=
  c.isDigit || ('a' ≤ c && c ≤ 'f') || ('A' ≤ c && c ≤ 'F')

/-- The capture class `[a-zA-Z0-9_\-\.@]` of `user_pattern`. -/
def isUserC (c : Char) : Bool :=
  c.isAlpha || c.isDigit || c = '_' || c = '-' || c = '.' || c = '@'

/-- ASCII case folding of a character list (model of Python `str.lower()`
restricted to ASCII, which is all the patterns use). -/
def lowerL (l : List Char) : List Char := l.map Char.toLower

/-- Python `str.strip()`: drop ASCII whitespace from both ends. -/
def pyStrip (l : List Char) : List Char :=
  ((l.dropWhile isSpaceC).reverse.dropWhile isSpaceC).reverse

/-- Python `int()` on a string of decimal digits. -/
def strToNat (l : List Char) : Nat :=
  l.foldl (fun a c => a * 10 + (c.toNat - 48)) 0

/-- Substring occurrence, Python's `needle in haystack`. -/
def containsSub (n : List Char) : List Char → Bool
  | [] => n.isEmpty
  | c :: t => n.isPrefixOf (c :: t) || containsSub n t

/-- Trailing word boundary `\b` after a run of word characters: the next
character, if any, is not a word character. -/
def boundaryAfter : List Char → Bool
  | [] => true
  | c :: _ => !isWordC c

/-- One position of the word-alternation search `\b(w1|w2|...)\b`:
the previous character (if any) is not a word character, some word of the
alternation is a literal prefix here, and the character following it (if any)
is not a word character.  All alternation words in the source consist of word
characters only, so the boundaries reduce to these two tests. -/
def wordHere (ws : List (List Char)) (prevIsWord : Bool) (h : List Char) : Bool :=
  !prevIsWord && ws.any (fun w => w.isPrefixOf h && boundaryAfter (h.drop w.length))

/-- Scan of `re.search` for a word-boundary alternation pattern:
true iff some position of the subject matches (`wordHere`). -/
def wordSearchAux (ws : List (List Char)) (prevIsWord : Bool) : List Char → Bool
  | [] => false
  | c :: t => wordHere ws prevIsWord (c :: t) || wordSearchAux ws (isWordC c) t

/-- `re.search` of `\b(w1|...|wk)\b` from the start of the subject. -/
def wordSearch (ws : List (List Char)) (h : List Char) : Bool :=
  wordSearchAux ws false h

/-- The alternation of `error_patterns`: `\b(error|fail|exception|critical)\b`. -/
def errorWords : List (List Char) :=
  [String.toList "error", String.toList "fail",
   String.toList "exception", String.toList "critical"]

/-- The alternation of `warning_patterns`: `\b(warn|warning|alert)\b`. -/
def warningWords : List (List Char) :=
  [String.toList "warn", String.toList "warning", String.toList "alert"]

/-- The substring needles of the INFO rule,
`any(word in message_lower for word in ['info', 'information'])`. -/
def infoChars : List Char := String.toList "info"

/-- See `infoChars`. -/
def informationChars : List Char := String.toList "information"

/-- The substring needle of the DEBUG rule, `'debug' in message_lower`. -/
def debugChars : List Char := String.toList "debug"

/-- `LogParser._classify_log_level` (parser.py lines 93-106): the
`IGNORECASE` regex searches are modelled on the lowered message (patterns are
lowercase ASCII and `\b` is stable under ASCII lowering), exactly mirroring
the source's priority cascade and its final `'INFO'` default. -/
def classify_log_level (msg : List Char) : String :=
  let m := lowerL msg
  if wordSearch errorWords m then "ERROR"
  else if wordSearch warningWords m then "WARNING"
  else if containsSub infoChars m || containsSub informationChars m then "INFO"
  else if containsSub debugChars m then "DEBUG"
  else "INFO"

/-- A fixed-shape pattern: a list of single-character tests. -/
def matchesShape : List (Char → Bool) → List Char → Bool
  | [], _ => true
  | _ :: _, [] => false
  | f :: fs, c :: cs => f c && matchesShape fs cs

/-- Shape of `timestamp_iso`: `\d{4}-\d{2}-\d{2}T\d{2}:\d{2}:\d{2}`. -/
def shapeIso : List (Char → Bool) :=
  [Char.isDigit, Char.isDigit, Char.isDigit, Char.isDigit, (· = '-'),
   Char.isDigit, Char.isDigit, (· = '-'), Char.isDigit, Char.isDigit,
   (· = 'T'), Char.isDigit, Char.isDigit, (· = ':'), Char.isDigit,
   Char.isDigit, (· = ':'), Char.isDigit, Char.isDigit]

/-- Shape `\d{2}:\d{2}:\d{2}` (the time-of-day tail shared by the
syslog-style timestamp patterns). -/
def shapeTime : List (Char → Bool) :=
  [Char.isDigit, Char.isDigit, (· = ':'), Char.isDigit, Char.isDigit,
   (· = ':'), Char.isDigit, Char.isDigit]

/-- `re.search` for a fixed-shape pattern: leftmost match, returning the
matched text (`match.group(0)`). -/
def searchShape (shape : List (Char → Bool)) : List Char → Option (List Char)
  | [] => if matchesShape shape [] then some [] else none
  | c :: t =>
    if matchesShape shape (c :: t) then some ((c :: t).take shape.length)
    else searchShape shape t

/-- Anchored test of `timestamp_common` = `\w{3}\s+\d{1,2}\s+\d{2}:\d{2}:\d{2}`
at one position.  `\s+` is greedy and disjoint from `\d`, so it is the maximal
whitespace run; `\d{1,2}` greedily tries two digits then one, each followed by
`\s+`. -/
def commonTsHere (l : List Char) : Bool :=
  match l with
  | a :: b :: c :: rest =>
    isWordC a && isWordC b && isWordC c &&
    (match rest with
     | s :: r1 =>
       isSpaceC s &&
       (let r2 := r1.dropWhile isSpaceC
        match r2 with
        | d1 :: d2 :: r3 =>
          d1.isDigit &&
          ((d2.isDigit &&
            (match r3 with
             | s2 :: r4 => isSpaceC s2 && matchesShape shapeTime (r4.dropWhile isSpaceC)
             | [] => false))
           ||
           (isSpaceC d2 && matchesShape shapeTime (r3.dropWhile isSpaceC)))
        | _ => false)
     | [] => false)
  | _ => false

/-- `re.search` of `timestamp_common`: some position matches. -/
def commonTsSearch : List Char → Bool
  | [] => false
  | c :: t => commonTsHere (c :: t) || commonTsSearch t

/-- One octet of `ip_v4` followed by a dot: `[0-9]{1,3}\.`.  The greedy run
must be the maximal digit run (a shorter choice leaves a digit where `\.`
is required), so the step is deterministic: 1-3 digits then `'.'`. -/
def ipOctetDot (l : List Char) : Option (List Char × List Char) :=
  let r := l.takeWhile Char.isDigit
  let rest := l.dropWhile Char.isDigit
  if 1 ≤ r.length && r.length ≤ 3 then
    match rest with
    | '.' :: t => some (r ++ ['.'], t)
    | _ => none
  else none

/-- Anchored match of `ip_v4` = `\b(?:[0-9]{1,3}\.){3}[0-9]{1,3}\b` at one
position (the leading `\b` is handled by the scanner through `prevIsWord`).
Returns the matched text and the rest of the subject. -/
def ipv4Here (l : List Char) : Option (List Char × List Char) :=
  (ipOctetDot l).bind fun p1 =>
  (ipOctetDot p1.2).bind fun p2 =>
  (ipOctetDot p2.2).bind fun p3 =>
    let r := p3.2.takeWhile Char.isDigit
    let rest := p3.2.dropWhile Char.isDigit
    if 1 ≤ r.length && r.length ≤ 3 && boundaryAfter rest then
      some (p1.1 ++ p2.1 ++ p3.1 ++ r, rest)
    else none

/-- One group of `ip_v6`: `[0-9a-fA-F]{1,4}:` (maximal hex run, then colon). -/
def hexColon (l : List Char) : Option (List Char × List Char) :=
  let r := l.takeWhile isHexC
  let rest := l.dropWhile isHexC
  if 1 ≤ r.length && r.length ≤ 4 then
    match rest with
    | ':' :: t => some (r ++ [':'], t)
    | _ => none
  else none

/-- `n` repetitions of `hexColon`. -/
def hexColonN : Nat → List Char → Option (List Char × List Char)
  | 0, l => some ([], l)
  | n + 1, l =>
    (hexColon l).bind fun p =>
    (hexColonN n p.2).map fun q => (p.1 ++ q.1, q.2)

/-- Anchored match of `ip_v6` = `\b(?:[0-9a-fA-F]{1,4}:){7}[0-9a-fA-F]{1,4}\b`
at one position. -/
def ipv6Here (l : List Char) : Option (List Char × List Char) :=
  (hexColonN 7 l).bind fun p =>
    let r := p.2.takeWhile isHexC
    let rest := p.2.dropWhile isHexC
    if 1 ≤ r.length && r.length ≤ 4 && boundaryAfter rest then
      some (p.1 ++ r, rest)
    else none

/-- `re.findall` scan for a pattern that opens with `\b` followed by a word
character: non-overlapping leftmost matches; a position whose predecessor is
a word character cannot open a match.  Fuel is the subject length (every step
consumes at least one character). -/
def findallWB (here : List Char → Option (List Char × List Char)) :
    Nat → Bool → List Char → List (List Char)
  | 0, _, _ => []
  | fuel + 1, prevW, l =>
    match l with
    | [] => []
    | ch :: t =>
      if prevW then findallWB here fuel (isWordC ch) t
      else
        match here (ch :: t) with
        | some (m, rest) =>
          m :: findallWB here fuel
            (match m.getLast? with | some c => isWordC c | none => prevW) rest
        | none => findallWB here fuel (isWordC ch) t

/-- `self.patterns['ip_v4'].findall(message)`. -/
def findallIpv4 (msg : List Char) : List (List Char) :=
  findallWB ipv4Here (msg.length + 1) false msg

/-- `self.patterns['ip_v6'].findall(message)`. -/
def findallIpv6 (msg : List Char) : List (List Char) :=
  findallWB ipv6Here (msg.length + 1) false msg

/-- Anchored match of `user_pattern` = `user[:\s]+([a-zA-Z0-9_\-\.@]+)`
(IGNORECASE) at one position: literal `user` case-insensitively, a nonempty
greedy separator run, then the nonempty greedy capture (the two classes are
disjoint, so both runs are maximal).  Returns the capture and the rest. -/
def userHere (l : List Char) : Option (List Char × List Char) :=
  match l with
  | a :: b :: c :: d :: rest =>
    if a.toLower = 'u' && b.toLower = 's' && c.toLower = 'e' && d.toLower = 'r' then
      let sep := rest.takeWhile (fun ch => ch = ':' || isSpaceC ch)
      let r1 := rest.dropWhile (fun ch => ch = ':' || isSpaceC ch)
      if sep.isEmpty then none
      else
        let cap := r1.takeWhile isUserC
        if cap.isEmpty then none else some (cap, r1.dropWhile isUserC)
    else none
  | _ => none

/-- `re.findall` scan for `user_pattern` (no word boundary): the captured
group of each non-overlapping leftmost match. -/
def findallUser : Nat → List Char → List (List Char)
  | 0, _ => []
  | fuel + 1, l =>
    match l with
    | [] => []
    | ch :: t =>
      match userHere (ch :: t) with
      | some (cap, rest) => cap :: findallUser fuel rest
      | none => findallUser fuel t

/-- `LogParser._extract_timestamp` (parser.py lines 61-74): the ISO pattern
first (returning the matched text), else the common syslog pattern (returning
`datetime.now().isoformat()`, modelled by the explicit `now` argument),
else `None`. -/
def extract_timestamp (now : String) (msg : List Char) : Option String :=
  match searchShape shapeIso msg with
  | some t => some (String.mk t)
  | none => if commonTsSearch msg then some now else none

/-- `LogParser._extract_ip_addresses` (parser.py lines 76-86): IPv4 matches,
then IPv6 matches, then `list(set(...))` modelled by `List.dedup`. -/
def extract_ip_addresses (msg : List Char) : List String :=
  ((findallIpv4 msg ++ findallIpv6 msg).map fun l => String.mk l).dedup

/-- `LogParser._extract_users` (parser.py lines 88-91). -/
def extract_users (msg : List Char) : List String :=
  ((findallUser (msg.length + 1) msg).map fun l => String.mk l).dedup

/-- Values stored in a log-record dictionary (strings, integers, booleans,
null, nested lists and objects from decoded JSON; `vNum` keeps a
non-integer JSON numeric literal verbatim). -/
inductive Value where
  | vStr : String → Value
  | vInt : Int → Value
  | vNum : String → Value
  | vBool : Bool → Value
  | vNull : Value
  | vList : List Value → Value
  | vObj : List (String × Value) → Value

open Value

/-- A record (Python `Dict[str, Any]`) as an association list with unique
keys, in insertion order. -/
abbrev Record := List (String × Value)

/-- Dictionary lookup: value of the first binding of `k`. -/
def rget (r : Record) (k : String) : Option Value :=
  match r with
  | [] => none
  | (k', v) :: t => if k' = k then some v else rget t k

/-- Dictionary assignment `r[k] = v`: replace the first binding in place,
or append a new binding (Python dicts keep insertion order). -/
def rset (r : Record) (k : String) (v : Value) : Record :=
  match r with
  | [] => [(k, v)]
  | (k', v') :: t => if k' = k then (k, v) :: t else (k', v') :: rset t k v

/-- `log_entry.get('message', '')` — the records handed to parsers carry
their message as a string (guarded by `msgOkB` in the theorems). -/
def getMessage (r : Record) : String :=
  match rget r "message" with
  | some (vStr s) => s
  | _ => ""

/-- The `message` field is absent or a string — on any other value the
Python code would raise a `TypeError` inside `re`, so the theorems about
`parse` are stated on this domain. -/
def msgOkB (r : Record) : Bool :=
  match rget r "message" with
  | none => true
  | some (vStr _) => true
  | some _ => false

/-- `Optional[str]` results become `vStr`/`vNull` record values. -/
def optVal : Option String → Value
  | some s => vStr s
  | none => vNull

/-- `LogParser.parse` (parser.py lines 23-47): copy the entry, set
`timestamp` only when the key is absent, then always recompute
`ip_addresses`, `users` and `log_level` from the `message` field. -/
def LogParser.parse (now : String) (r : Record) : Record :=
  let msg := (getMessage r).toList
  let r1 :=
    match rget r "timestamp" with
    | none => rset r "timestamp" (optVal (extract_timestamp now msg))
    | some _ => r
  let r2 := rset r1 "ip_addresses" (vList ((extract_ip_addresses msg).map vStr))
  let r3 := rset r2 "users" (vList ((extract_users msg).map vStr))
  rset r3 "log_level" (vStr (classify_log_level msg))

/-- Consume one expected literal character (a regex literal such as `<`,
`>`, `[`, `]`, `"` or a space). -/
def reqChar (c : Char) (l : List Char) : Option (List Char) :=
  match l with
  | x :: t => if x = c then some t else none
  | [] => none

/-- Consume one character of a class (used for the alternation `(?::|\s)`). -/
def reqPred (p : Char → Bool) (l : List Char) : Option (List Char) :=
  match l with
  | x :: t => if p x then some t else none
  | [] => none

/-- Capture three characters (`[A-Za-z]{3}`-style fixed-width openings). -/
def take3 (l : List Char) : Option (Char × Char × Char × List Char) :=
  match l with
  | a :: b :: c :: r => some (a, b, c, r)
  | _ => none

/-- Group 2 of `syslog_pattern`: `[A-Za-z]{3}\s+\d{1,2}\s+\d{2}:\d{2}:\d{2}`.
Both `\s+` runs are maximal (whitespace and digits are disjoint); the greedy
`\d{1,2}` must take the whole digit run, which therefore has length 1 or 2
(a longer run leaves a digit where `\s+` is required, and shorter greedy
choices fail the same way).  Returns (matched text, rest). -/
def syslogTs (l : List Char) : Option (List Char × List Char) :=
  (take3 l).bind fun t3 =>
    if t3.1.isAlpha && t3.2.1.isAlpha && t3.2.2.1.isAlpha then
      let r0 := t3.2.2.2
      let sp1 := r0.takeWhile isSpaceC
      let r1 := r0.dropWhile isSpaceC
      if sp1.isEmpty then none
      else
        let day := r1.takeWhile Char.isDigit
        let r2 := r1.dropWhile Char.isDigit
        if 1 ≤ day.length && day.length ≤ 2 then
          let sp2 := r2.takeWhile isSpaceC
          let r3 := r2.dropWhile isSpaceC
          if sp2.isEmpty then none
          else if matchesShape shapeTime r3 then
            some (t3.1 :: t3.2.1 :: t3.2.2.1 :: (sp1 ++ day ++ sp2 ++ r3.take 8),
              r3.drop 8)
          else none
        else none
    else none

/-- `re.match` of `syslog_pattern` =
`<(\d+)>([A-Za-z]{3}\s+\d{1,2}\s+\d{2}:\d{2}:\d{2})\s+(\S+)\s+([^\s:]+)(?::|\s)(.*)`
(parser.py lines 114-116).  Every greedy run is followed by a character
outside its class, so the match is deterministic; `.` does not cross `'\n'`.
Returns the five captured groups. -/
def syslogMatch (l : List Char) :
    Option (List Char × List Char × List Char × List Char × List Char) :=
  (reqChar '<' l).bind fun r0 =>
    let pri := r0.takeWhile Char.isDigit
    let r1 := r0.dropWhile Char.isDigit
    if pri.isEmpty then none
    else
      (reqChar '>' r1).bind fun r2 =>
      (syslogTs r2).bind fun ts =>
        let sp := ts.2.takeWhile isSpaceC
        let r3 := ts.2.dropWhile isSpaceC
        if sp.isEmpty then none
        else
          let host := r3.takeWhile (fun ch => !isSpaceC ch)
          let r4 := r3.dropWhile (fun ch => !isSpaceC ch)
          if host.isEmpty then none
          else
            let sp2 := r4.takeWhile isSpaceC
            let r5 := r4.dropWhile isSpaceC
            if sp2.isEmpty then none
            else
              let prog := r5.takeWhile (fun ch => !isSpaceC ch && ch ≠ ':')
              let r6 := r5.dropWhile (fun ch => !isSpaceC ch && ch ≠ ':')
              if prog.isEmpty then none
              else
                (reqPred (fun ch => ch = ':' || isSpaceC ch) r6).bind fun r7 =>
                  some (pri, ts.1, host, prog, r7.takeWhile (· ≠ '\n'))

/-- `SyslogParser.parse` (parser.py lines 118-141): base parse, then on a
`syslog_pattern` match add `syslog_facility = int(pri) // 8`,
`syslog_severity = int(pri) % 8`, `hostname`, `program` and the stripped
trailing payload `parsed_message`. -/
def SyslogParser.parse (now : String) (r : Record) : Record :=
  let base := LogParser.parse now r
  let msg := (getMessage r).toList
  match syslogMatch msg with
  | some (pri, _, host, prog, m) =>
    let p := strToNat pri
    rset (rset (rset (rset (rset base
      "syslog_facility" (vInt (p / 8)))
      "syslog_severity" (vInt (p % 8)))
      "hostname" (vStr (String.mk host)))
      "program" (vStr (String.mk prog)))
      "parsed_message" (vStr (String.mk (pyStrip m)))
  | none => base

/-- All splits `l = p ++ '"' :: s` in ascending position order (ascending
length of `p`). -/
def quoteSplits : List Char → List (List Char × List Char)
  | [] => []
  | c :: t =>
    (if c = '"' then [(([] : List Char), t)] else []) ++
      (quoteSplits t).map fun q => (c :: q.1, q.2)

/-- Tail of `common_log_pattern` after the closing quote: ` (\d+) (\S+)`.
The greedy digit run must be maximal (a shorter choice leaves a digit where
the literal space is required), as must the final `\S+`.  Returns
(status, size). -/
def webTail (l : List Char) : Option (List Char × List Char) :=
  (reqChar ' ' l).bind fun r0 =>
    let status := r0.takeWhile Char.isDigit
    let r1 := r0.dropWhile Char.isDigit
    if status.isEmpty then none
    else
      (reqChar ' ' r1).bind fun r2 =>
        let size := r2.takeWhile (fun ch => !isSpaceC ch)
        if size.isEmpty then none else some (status, size)

/-- One leading field of `common_log_pattern`: `\S+ ` — maximal nonempty
run of non-whitespace followed by the literal space. -/
def fieldSp (l : List Char) : Option (List Char × List Char) :=
  let f := l.takeWhile (fun ch => !isSpaceC ch)
  let rest := l.dropWhile (fun ch => !isSpaceC ch)
  if f.isEmpty then none
  else (reqChar ' ' rest).map fun t => (f, t)

/-- `re.match` of `common_log_pattern` =
`(\S+) \S+ \S+ \[([^\]]+)\] "(\S+) (\S+) (\S+)" (\d+) (\S+)`
(parser.py lines 150-152).  The protocol group `(\S+)"` needs genuine
backtracking: the engine tries the splits of the greedy `\S+` run at each
`'"'` from the rightmost leftwards until the tail of the pattern succeeds.
Returns the seven captured groups. -/
def webMatch (l : List Char) :
    Option (List Char × List Char × List Char × List Char × List Char ×
            List Char × List Char) :=
  (fieldSp l).bind fun ip =>
  (fieldSp ip.2).bind fun id2 =>
  (fieldSp id2.2).bind fun au =>
  (reqChar '[' au.2).bind fun r0 =>
    let ts := r0.takeWhile (· ≠ ']')
    let r1 := r0.dropWhile (· ≠ ']')
    if ts.isEmpty then none
    else
      (reqChar ']' r1).bind fun ra =>
      (reqChar ' ' ra).bind fun rb =>
      (reqChar '"' rb).bind fun r2 =>
      (fieldSp r2).bind fun method =>
      (fieldSp method.2).bind fun url =>
        let run := url.2.takeWhile (fun ch => !isSpaceC ch)
        let rest0 := url.2.dropWhile (fun ch => !isSpaceC ch)
        ((quoteSplits run).reverse.findSome? fun q =>
          if q.1.isEmpty then none
          else
            (webTail (q.2 ++ rest0)).map fun st =>
              (ip.1, ts, method.1, url.1, q.1, st.1, st.2))

/-- `WebLogParser.parse` (parser.py lines 154-173): base parse, then on a
`common_log_pattern` match add the web fields; `status_code` is `int(status)`
but `response_size` keeps the matched string unless it is the placeholder
`'-'`, which becomes the integer `0` (`size if size != '-' else 0`). -/
def WebLogParser.parse (now : String) (r : Record) : Record :=
  let base := LogParser.parse now r
  let msg := (getMessage r).toList
  match webMatch msg with
  | some (ip, _, method, url, proto, status, size) =>
    rset (rset (rset (rset (rset (rset base
      "client_ip" (vStr (String.mk ip)))
      "http_method" (vStr (String.mk method)))
      "url" (vStr (String.mk url)))
      "http_protocol" (vStr (String.mk proto)))
      "status_code" (vInt (strToNat status)))
      "response_size"
        (if String.mk size ≠ "-" then vStr (String.mk size) else vInt 0)
  | none => base

/-- The three parser variants of the registry. -/
inductive ParserKind where
  | generic : ParserKind
  | syslog : ParserKind
  | web : ParserKind
  deriving DecidableEq

/-- Dispatch `parse` over the variant. -/
def parseWith : ParserKind → String → Record → Record
  | .generic => LogParser.parse
  | .syslog => SyslogParser.parse
  | .web => WebLogParser.parse

/-- `create_parser` (parser.py lines 176-193):
`{'generic': LogParser, 'syslog': SyslogParser, 'web': WebLogParser}`
looked up with `.get(parser_type, LogParser)`. -/
def createParser (parser_type : String) : ParserKind :=
  if parser_type = "generic" then .generic
  else if parser_type = "syslog" then .syslog
  else if parser_type = "web" then .web
  else .generic

/-- JSON whitespace between tokens. -/
def jsonWsC (c : Char) : Bool :=
  c = ' ' || c = '\t' || c = '\n' || c = '\r'

/-- Numeric value of a hex digit. -/
def hexVal (c : Char) : Nat :=
  if c.isDigit then c.toNat - 48
  else if 'a' ≤ c && c ≤ 'f' then c.toNat - 87
  else c.toNat - 55

/-- JSON string body after the opening quote: plain characters, the
standard escapes and `\uXXXX`; unescaped control characters and unknown
escapes are rejected, as Python's strict `json.loads` does. -/
def parseJStr : List Char → Option (List Char × List Char)
  | [] => none
  | '"' :: t => some ([], t)
  | '\\' :: e :: t =>
    match e with
    | '"' => (parseJStr t).map fun p => ('"' :: p.1, p.2)
    | '\\' => (parseJStr t).map fun p => ('\\' :: p.1, p.2)
    | '/' => (parseJStr t).map fun p => ('/' :: p.1, p.2)
    | 'n' => (parseJStr t).map fun p => ('\n' :: p.1, p.2)
    | 't' => (parseJStr t).map fun p => ('\t' :: p.1, p.2)
    | 'r' => (parseJStr t).map fun p => ('\r' :: p.1, p.2)
    | 'b' => (parseJStr t).map fun p => ('\x08' :: p.1, p.2)
    | 'f' => (parseJStr t).map fun p => ('\x0c' :: p.1, p.2)
    | 'u' =>
      match t with
      | a :: b :: c :: d :: t' =>
        if isHexC a && isHexC b && isHexC c && isHexC d then
          (parseJStr t').map fun p =>
            (Char.ofNat (((hexVal a * 16 + hexVal b) * 16 + hexVal c) * 16 + hexVal d)
              :: p.1, p.2)
        else none
      | _ => none
    | _ => none
  | c :: t =>
    if c.toNat < 32 then none
    else (parseJStr t).map fun p => (c :: p.1, p.2)

/-- JSON number, grammar `-?(0|[1-9]\d*)(\.\d+)?([eE][+-]?\d+)?`.  An
integer literal becomes `vInt` (Python `int`); a literal with a fraction or
exponent is kept verbatim as `vNum` (its numeric value is never consumed by
the ingestion code, which only needs object-versus-non-object). -/
def parseJNum (l : List Char) : Option (Value × List Char) :=
  let (neg, l1) := match l with | '-' :: t => (true, t) | _ => (false, l)
  let ds := l1.takeWhile Char.isDigit
  let r := l1.dropWhile Char.isDigit
  if ds.isEmpty then none
  else if 2 ≤ ds.length && ds.head? = some '0' then none
  else
    let mkLit (frac expo : List Char) : Value :=
      vNum (String.mk ((if neg then ['-'] else []) ++ ds ++ frac ++ expo))
    match r with
    | '.' :: t =>
      let fs := t.takeWhile Char.isDigit
      let r2 := t.dropWhile Char.isDigit
      if fs.isEmpty then none
      else
        match r2 with
        | e :: '+' :: t2 =>
          if e = 'e' || e = 'E' then
            let es := t2.takeWhile Char.isDigit
            if es.isEmpty then none
            else some (mkLit ('.' :: fs) (e :: '+' :: es), t2.dropWhile Char.isDigit)
          else some (mkLit ('.' :: fs) [], r2)
        | e :: '-' :: t2 =>
          if e = 'e' || e = 'E' then
            let es := t2.takeWhile Char.isDigit
            if es.isEmpty then none
            else some (mkLit ('.' :: fs) (e :: '-' :: es), t2.dropWhile Char.isDigit)
          else some (mkLit ('.' :: fs) [], r2)
        | e :: t2 =>
          if e = 'e' || e = 'E' then
            let es := t2.takeWhile Char.isDigit
            if es.isEmpty then none
            else some (mkLit ('.' :: fs) (e :: es), t2.dropWhile Char.isDigit)
          else some (mkLit ('.' :: fs) [], r2)
        | [] => some (mkLit ('.' :: fs) [], [])
    | e :: '+' :: t2 =>
      if e = 'e' || e = 'E' then
        let es := t2.takeWhile Char.isDigit
        if es.isEmpty then none
        else some (mkLit [] (e :: '+' :: es), t2.dropWhile Char.isDigit)
      else some (vInt (if neg then -(strToNat ds : Int) else strToNat ds), r)
    | e :: '-' :: t2 =>
      if e = 'e' || e = 'E' then
        let es := t2.takeWhile Char.isDigit
        if es.isEmpty then none
        else some (mkLit [] (e :: '-' :: es), t2.dropWhile Char.isDigit)
      else some (vInt (if neg then -(strToNat ds : Int) else strToNat ds), r)
    | e :: t2 =>
      if e = 'e' || e = 'E' then
        let es := t2.takeWhile Char.isDigit
        if es.isEmpty then none
        else some (mkLit [] (e :: es), t2.dropWhile Char.isDigit)
      else some (vInt (if neg then -(strToNat ds : Int) else strToNat ds), r)
    | [] => some (vInt (if neg then -(strToNat ds : Int) else strToNat ds), [])

mutual

/-- One JSON value (recursive descent with fuel; fuel is generous enough
that it never runs out on a subject it was sized for).  Besides the strict
JSON grammar, Python's default scanner also accepts the constants `NaN`,
`Infinity` and `-Infinity`, decoding them to floats — valid non-object
values, kept here as `vNum` literals.  Object member lists are folded with
`rset` so that, as in a Python dict, a duplicated key keeps its first
position but its last value. -/
def parseJVal : Nat → List Char → Option (Value × List Char)
  | 0, _ => none
  | fuel + 1, l =>
    let l := l.dropWhile jsonWsC
    match l with
    | 'n' :: 'u' :: 'l' :: 'l' :: r => some (vNull, r)
    | 't' :: 'r' :: 'u' :: 'e' :: r => some (vBool true, r)
    | 'f' :: 'a' :: 'l' :: 's' :: 'e' :: r => some (vBool false, r)
    | 'N' :: 'a' :: 'N' :: r => some (vNum "NaN", r)
    | 'I' :: 'n' :: 'f' :: 'i' :: 'n' :: 'i' :: 't' :: 'y' :: r =>
      some (vNum "Infinity", r)
    | '-' :: 'I' :: 'n' :: 'f' :: 'i' :: 'n' :: 'i' :: 't' :: 'y' :: r =>
      some (vNum "-Infinity", r)
    | '"' :: r => (parseJStr r).map fun p => (vStr (String.mk p.1), p.2)
    | '[' :: r =>
      (match (r.dropWhile jsonWsC) with
       | ']' :: r2 => some (vList [], r2)
       | _ => (parseJItems fuel r).map fun p => (vList p.1, p.2))
    | '{' :: r =>
      (match (r.dropWhile jsonWsC) with
       | '}' :: r2 => some (vObj [], r2)
       | _ =>
         (parseJMembers fuel r).map fun p =>
           (vObj (p.1.foldl (fun acc kv => rset acc kv.1 kv.2) []), p.2))
    | c :: r => if c = '-' || c.isDigit then parseJNum (c :: r) else none
    | [] => none

/-- Comma-separated array items, ending at `']'`. -/
def parseJItems : Nat → List Char → Option (List Value × List Char)
  | 0, _ => none
  | fuel + 1, l =>
    (parseJVal fuel l).bind fun p =>
      match p.2.dropWhile jsonWsC with
      | ',' :: r => (parseJItems fuel r).map fun q => (p.1 :: q.1, q.2)
      | ']' :: r => some ([p.1], r)
      | _ => none

/-- Comma-separated `"key": value` members, ending at `'}'`. -/
def parseJMembers : Nat → List Char → Option (List (String × Value) × List Char)
  | 0, _ => none
  | fuel + 1, l =>
    match l.dropWhile jsonWsC with
    | '"' :: r =>
      (parseJStr r).bind fun k =>
        match k.2.dropWhile jsonWsC with
        | ':' :: r2 =>
          (parseJVal fuel r2).bind fun p =>
            match p.2.dropWhile jsonWsC with
            | ',' :: r3 => (parseJMembers fuel r3).map fun q =>
                ((String.mk k.1, p.1) :: q.1, q.2)
            | '}' :: r3 => some ([(String.mk k.1, p.1)], r3)
            | _ => none
        | _ => none
    | _ => none

end

/-- Model of Python `json.loads` on one line: a single JSON value with
optional surrounding whitespace.  The non-strict constants `NaN`,
`Infinity` and `-Infinity` decode successfully (to float non-objects), as
Python's default scanner does. -/
def jsonLoads (s : String) : Option Value :=
  match parseJVal (2 * s.length + 8) s.toList with
  | some (v, rest) => if (rest.dropWhile jsonWsC).isEmpty then some v else none
  | none => none

/-- A filesystem snapshot: file paths with their lines (newline-stripped),
and the set of directories, in enumeration order. -/
structure FileSys where
  files : List (String × List String)
  dirs : List String

/-- `Path(p).exists()`. -/
def pathExists (fs : FileSys) (p : String) : Bool :=
  fs.files.any (fun q => q.1 = p) || fs.dirs.contains p

/-- `Path(p).is_dir()`. -/
def isDirB (fs : FileSys) (p : String) : Bool :=
  fs.dirs.contains p

/-- The lines of a file of the snapshot. -/
def fileLines (fs : FileSys) (p : String) : List String :=
  match fs.files.find? (fun q => q.1 = p) with
  | some q => q.2
  | none => []

/-- `Path(p).suffix`: the extension (with its dot) of the final path
component; a leading dot alone does not open an extension. -/
def pathSuffix (p : String) : String :=
  let b := (p.toList.reverse.takeWhile (· ≠ '/')).reverse
  let r := b.reverse.takeWhile (· ≠ '.')
  if r.length = b.length then ""
  else if r.length + 1 = b.length then ""
  else String.mk ('.' :: r.reverse)

/-- A blank line, Python `not line.strip()`. -/
def blankLine (l : String) : Bool :=
  (l.toList.dropWhile isSpaceC).isEmpty

/-- `LogIngestor._ingest_json` (ingest.py lines 66-81), line numbers 1-based:
a blank line is skipped; a line that decodes to a JSON object is tagged with
provenance and yielded; a `json.JSONDecodeError` is logged and the line
skipped; but a line that decodes to a non-object makes
`entry['_file_source'] = ...` raise `TypeError`, which the outer
`except Exception` catches, ending the generator — the rest of the file is
dropped. -/
def ingest_json (path : String) : Nat → List String → List Record
  | _, [] => []
  | n, line :: rest =>
    if blankLine line then ingest_json path (n + 1) rest
    else
      match jsonLoads line with
      | some (vObj fields) =>
        rset (rset fields "_file_source" (vStr path)) "_line_number" (vInt n)
          :: ingest_json path (n + 1) rest
      | some _ => []
      | none => ingest_json path (n + 1) rest

/-- Enumeration of a list, indices starting at `n` (Python `enumerate(f, n)`). -/
def enumFrom (n : Nat) : List α → List (Nat × α)
  | [] => []
  | a :: t => (n, a) :: enumFrom (n + 1) t

/-- Split a line at commas. -/
def splitCommaAux : List Char → List Char → List (List Char)
  | [], acc => [acc.reverse]
  | ',' :: t, acc => acc.reverse :: splitCommaAux t []
  | c :: t, acc => splitCommaAux t (c :: acc)

/-- Modelled from the spec: `LogIngestor._ingest_csv` delegates to the
stdlib `csv.DictReader`, which is not part of src/; per the spec, the first
line is a header row and each subsequent row becomes a record keyed by the
header names (simple comma splitting; quoting is not modelled, no claim
exercises it). -/
def ingest_csv (path : String) (lines : List String) : List Record :=
  match lines with
  | [] => []
  | header :: rows =>
    let hs := (splitCommaAux header.toList []).map String.mk
    (enumFrom 1 (rows.filter fun row => row ≠ "")).map fun nr =>
      rset (rset (hs.zip (((splitCommaAux nr.2.toList []).map String.mk).map vStr))
        "_file_source" (vStr path)) "_line_number" (vInt nr.1)

/-- `LogIngestor._ingest_text` (ingest.py lines 95-109): each non-blank line
becomes a record with the stripped line, the current wall-clock time (the
`now` argument) and provenance. -/
def ingest_text (now path : String) : Nat → List String → List Record
  | _, [] => []
  | n, line :: rest =>
    if blankLine line then ingest_text now path (n + 1) rest
    else
      [("message", vStr (String.mk (pyStrip line.toList))),
       ("timestamp", vStr now),
       ("_file_source", vStr path),
       ("_line_number", vInt n)] :: ingest_text now path (n + 1) rest

/-- `LogIngestor.ingest_file` (ingest.py lines 25-46): a missing path yields
the empty sequence; otherwise dispatch on the lowered extension. -/
def ingest_file (fs : FileSys) (now : String) (file_path : String) : List Record :=
  if !pathExists fs file_path then []
  else
    let ext := String.mk (lowerL (pathSuffix file_path).toList)
    let lines := fileLines fs file_path
    if ext = ".json" then ingest_json file_path 1 lines
    else if ext = ".csv" then ingest_csv file_path lines
    else ingest_text now file_path 1 lines

/-- `LogIngestor.ingest_directory` (ingest.py lines 48-64): a missing
directory yields the empty sequence; otherwise `rglob("*.log")` files under
the directory are ingested in enumeration order. -/
def ingest_directory (fs : FileSys) (now : String) (directory_path : String) :
    List Record :=
  if !isDirB fs directory_path then []
  else
    (((fs.files.map Prod.fst).filter fun p =>
        (directory_path ++ "/").isPrefixOf p && p.endsWith ".log").map
      (ingest_file fs now)).flatten

/-- `SyslogIngestor.facility_names` (ingest.py lines 117-120). -/
def facility_names : List (Nat × String) :=
  [(0, "kernel"), (1, "user"), (2, "mail"), (3, "daemon"),
   (4, "auth"), (5, "syslog"), (6, "lpr"), (7, "news")]

/-- `SyslogIngestor.severity_names` (ingest.py lines 121-124). -/
def severity_names : List (Nat × String) :=
  [(0, "emergency"), (1, "alert"), (2, "critical"), (3, "error"),
   (4, "warning"), (5, "notice"), (6, "info"), (7, "debug")]

/-- The three ingestor variants of the registry (the syslog and windows
variants only pre-populate lookup tables; ingestion behavior is the base
class's). -/
inductive IngestorKind where
  | generic : IngestorKind
  | syslog : IngestorKind
  | windows : IngestorKind
  deriving DecidableEq

/-- `create_ingestor` (ingest.py lines 136-153):
`{'generic': LogIngestor, 'syslog': SyslogIngestor,
'windows': WindowsEventLogIngestor}` looked up with
`.get(log_type, LogIngestor)`. -/
def create_ingestor (log_type : String) : IngestorKind :=
  if log_type = "generic" then .generic
  else if log_type = "syslog" then .syslog
  else if log_type = "windows" then .windows
  else .generic


/-- A malformed JSON line: non-blank and `json.loads` fails. -/
def malformedLine (l : String) : Bool :=
  !blankLine l && (jsonLoads l).isNone

/-- Stated from the spec's words for the refinement claim about JSON
ingestion: one provenance-tagged RawRecord per non-blank line that decodes
as a JSON object, in line order (numbering from `n`); all other lines are
skipped. -/
def specJsonOut (path : String) (n : Nat) (lines : List String) : List Record :=
  (enumFrom n lines).filterMap fun nl =>
    if blankLine nl.2 then none
    else
      match jsonLoads nl.2 with
      | some (vObj fields) =>
        some (rset (rset fields "_file_source" (vStr path))
          "_line_number" (vInt nl.1))
      | _ => none


/-- A plain substring occurrence (the semantics of an unanchored substring
search, and of Python `needle in haystack`). -/
def SubOccurs (n l : List Char) : Prop :=
  ∃ pre post, l = pre ++ n ++ post

/-- An occurrence of the word `w` with a word boundary on each side: the
occurrence starts at the beginning or after a non-word character, and ends
at the end or before a non-word character (the semantics of
`re.search` for `\bw\b` when `w` is made of word characters). -/
def WordOcc (w l : List Char) : Prop :=
  ∃ pre post, l = pre ++ w ++ post ∧
    (pre = [] ∨ ∃ c, pre.getLast? = some c ∧ isWordC c = false) ∧
    (post = [] ∨ ∃ c, post.head? = some c ∧ isWordC c = false)

/-- A syslog line built from known PRI, timestamp, hostname, program and
message parts, in the form `<PRI>Mon D HH:MM:SS hostname program: message`
(the round-trip subject of the spec). -/
def mkSyslogLine (priS : List Char) (m1 m2 m3 : Char) (day : List Char)
    (h1 h2 p1 p2 q1 q2 : Char) (host prog msg : List Char) : List Char :=
  '<' :: (priS ++ ('>' :: m1 :: m2 :: m3 :: ' ' ::
    (day ++ (' ' :: h1 :: h2 :: ':' :: p1 :: p2 :: ':' :: q1 :: q2 :: ' ' ::
      (host ++ (' ' :: (prog ++ (':' :: ' ' :: msg))))))))

/-- A Common Log Format line built from known field values, in the form
`client-ip ident authuser [timestamp] "METHOD url PROTOCOL" status size`. -/
def mkWebLine (ip id2 au ts method url proto status size : List Char) :
    List Char :=
  ip ++ (' ' :: (id2 ++ (' ' :: (au ++ (' ' :: '[' ::
    (ts ++ (']' :: ' ' :: '"' :: (method ++ (' ' :: (url ++ (' ' ::
      (proto ++ ('"' :: ' ' :: (status ++ (' ' :: size)))))))))))))))

/-! ## Helper lemmas about record access -/

theorem rget_rset_self (r : Record) (k : String) (v : Value) :
    rget (rset r k v) k = some v := by
  induction r with
  | nil => simp [rset, rget]
  | cons hd tl ih =>
    by_cases h : hd.1 = k
    · simp [rset, rget, h]
    · simp [rset, rget, h, ih]

theorem rget_rset_ne (r : Record) (k k' : String) (v : Value) (h : k ≠ k') :
    rget (rset r k v) k' = rget r k' := by
  induction r with
  | nil => simp [rset, rget, h]
  | cons hd tl ih =>
    by_cases hh : hd.1 = k
    · simp [rset, rget, hh, h]
    · simp [rset, rget, hh, ih]

theorem rget_base_parse_ne (now : String) (r : Record) (k : String)
    (h1 : k ≠ "timestamp") (h2 : k ≠ "ip_addresses") (h3 : k ≠ "users")
    (h4 : k ≠ "log_level") :
    rget (LogParser.parse now r) k = rget r k := by
  unfold LogParser.parse
  cases hrt : rget r "timestamp" with
  | none =>
    simp only [hrt]
    rw [rget_rset_ne _ _ _ _ (Ne.symm h4), rget_rset_ne _ _ _ _ (Ne.symm h3),
      rget_rset_ne _ _ _ _ (Ne.symm h2), rget_rset_ne _ _ _ _ (Ne.symm h1)]
  | some v =>
    simp only [hrt]
    rw [rget_rset_ne _ _ _ _ (Ne.symm h4), rget_rset_ne _ _ _ _ (Ne.symm h3),
      rget_rset_ne _ _ _ _ (Ne.symm h2)]

theorem rget_base_parse_log_level (now : String) (r : Record) :
    rget (LogParser.parse now r) "log_level" =
      some (vStr (classify_log_level (getMessage r).toList)) := by
  unfold LogParser.parse
  cases hrt : rget r "timestamp" <;> simp only [hrt] <;> rw [rget_rset_self]

theorem rget_base_parse_users (now : String) (r : Record) :
    rget (LogParser.parse now r) "users" =
      some (vList ((extract_users (getMessage r).toList).map vStr)) := by
  unfold LogParser.parse
  cases hrt : rget r "timestamp" <;> simp only [hrt] <;>
    rw [rget_rset_ne _ _ _ _ (by decide), rget_rset_self]

theorem rget_base_parse_ips (now : String) (r : Record) :
    rget (LogParser.parse now r) "ip_addresses" =
      some (vList ((extract_ip_addresses (getMessage r).toList).map vStr)) := by
  unfold LogParser.parse
  cases hrt : rget r "timestamp" <;> simp only [hrt] <;>
    rw [rget_rset_ne _ _ _ _ (by decide), rget_rset_ne _ _ _ _ (by decide),
      rget_rset_self]

theorem rget_syslog_parse_eq_base (now : String) (r : Record) (k : String)
    (h1 : k ≠ "syslog_facility") (h2 : k ≠ "syslog_severity")
    (h3 : k ≠ "hostname") (h4 : k ≠ "program") (h5 : k ≠ "parsed_message") :
    rget (SyslogParser.parse now r) k = rget (LogParser.parse now r) k := by
  unfold SyslogParser.parse
  cases hm : syslogMatch (getMessage r).toList with
  | none => simp only [hm]
  | some g =>
    obtain ⟨pri, ts, host, prog, m⟩ := g
    simp only [hm]
    rw [rget_rset_ne _ _ _ _ (Ne.symm h5), rget_rset_ne _ _ _ _ (Ne.symm h4),
      rget_rset_ne _ _ _ _ (Ne.symm h3), rget_rset_ne _ _ _ _ (Ne.symm h2),
      rget_rset_ne _ _ _ _ (Ne.symm h1)]

theorem rget_web_parse_eq_base (now : String) (r : Record) (k : String)
    (h1 : k ≠ "client_ip") (h2 : k ≠ "http_method") (h3 : k ≠ "url")
    (h4 : k ≠ "http_protocol") (h5 : k ≠ "status_code")
    (h6 : k ≠ "response_size") :
    rget (WebLogParser.parse now r) k = rget (LogParser.parse now r) k := by
  unfold WebLogParser.parse
  cases hm : webMatch (getMessage r).toList with
  | none => simp only [hm]
  | some g =>
    obtain ⟨ip, ts, method, url, proto, status, size⟩ := g
    simp only [hm]
    rw [rget_rset_ne _ _ _ _ (Ne.symm h6), rget_rset_ne _ _ _ _ (Ne.symm h5),
      rget_rset_ne _ _ _ _ (Ne.symm h4), rget_rset_ne _ _ _ _ (Ne.symm h3),
      rget_rset_ne _ _ _ _ (Ne.symm h2), rget_rset_ne _ _ _ _ (Ne.symm h1)]

/-! ## Claim theorems -/

/-- C10: `create_parser` maps generic/syslog/web to the corresponding parser
and any other kind silently to the generic parser; `create_ingestor` does the
same for generic/syslog/windows; neither factory can fail. -/
theorem c10_factories :
    createParser "generic" = ParserKind.generic ∧
    createParser "syslog" = ParserKind.syslog ∧
    createParser "web" = ParserKind.web ∧
    (∀ s : String, s ≠ "generic" → s ≠ "syslog" → s ≠ "web" →
      createParser s = ParserKind.generic) ∧
    create_ingestor "generic" = IngestorKind.generic ∧
    create_ingestor "syslog" = IngestorKind.syslog ∧
    create_ingestor "windows" = IngestorKind.windows ∧
    (∀ s : String, s ≠ "generic" → s ≠ "syslog" → s ≠ "windows" →
      create_ingestor s = IngestorKind.generic) := by
  refine ⟨rfl, rfl, rfl, ?_, rfl, rfl, rfl, ?_⟩ <;>
    (intro s h1 h2 h3; simp [createParser, create_ingestor, h1, h2, h3])

/-- C10 witness: the factories at an unknown kind. -/
theorem c10_factories_witness :
    createParser "windows" = ParserKind.generic ∧
    create_ingestor "web" = IngestorKind.generic :=
  ⟨c10_factories.2.2.2.1 "windows" (by decide) (by decide) (by decide),
   c10_factories.2.2.2.2.2.2.2 "web" (by decide) (by decide) (by decide)⟩

/-- C8: ingesting a nonexistent file path or a non-directory yields the
empty sequence (and, the embedding being total, raises nothing). -/
theorem c8_missing_path_empty (fs : FileSys) (now p d : String)
    (hf : pathExists fs p = false) (hd : isDirB fs d = false) :
    ingest_file fs now p = [] ∧ ingest_directory fs now d = [] := by
  constructor
  · unfold ingest_file; rw [hf]; simp
  · unfold ingest_directory; rw [hd]; simp

/-- C8 witness: the empty filesystem with concrete paths. -/
theorem c8_missing_path_empty_witness :
    ingest_file { files := [], dirs := [] } "NOW" "logs/a.json" = [] ∧
    ingest_directory { files := [], dirs := [] } "NOW" "logs" = [] :=
  c8_missing_path_empty { files := [], dirs := [] } "NOW" "logs/a.json" "logs"
    rfl rfl

/-- C9: every parser copies its input (the embedding is a pure function of
the record) and the result keeps the provenance fields `_file_source` and
`_line_number` unchanged — more generally every key other than the derived
fields is left untouched. -/
theorem c9_provenance (k : ParserKind) (now : String) (r : Record)
    (fsrc lnum : Value)
    (_hm : msgOkB r = true)
    (h1 : rget r "_file_source" = some fsrc)
    (h2 : rget r "_line_number" = some lnum) :
    rget (parseWith k now r) "_file_source" = some fsrc ∧
    rget (parseWith k now r) "_line_number" = some lnum ∧
    (∀ key : String,
      key ∉ ["timestamp", "ip_addresses", "users", "log_level",
        "syslog_facility", "syslog_severity", "hostname", "program",
        "parsed_message", "client_ip", "http_method", "url", "http_protocol",
        "status_code", "response_size"] →
      rget (parseWith k now r) key = rget r key) := by
  have frame : ∀ key : String,
      key ∉ (["timestamp", "ip_addresses", "users", "log_level",
        "syslog_facility", "syslog_severity", "hostname", "program",
        "parsed_message", "client_ip", "http_method", "url", "http_protocol",
        "status_code", "response_size"] : List String) →
      rget (parseWith k now r) key = rget r key := by
    intro key hk
    simp only [List.mem_cons, List.not_mem_nil, or_false, not_or] at hk
    obtain ⟨n1, n2, n3, n4, n5, n6, n7, n8, n9, n10, n11, n12, n13, n14, n15⟩ := hk
    cases k with
    | generic => exact rget_base_parse_ne now r key n1 n2 n3 n4
    | syslog =>
      exact (rget_syslog_parse_eq_base now r key n5 n6 n7 n8 n9).trans
        (rget_base_parse_ne now r key n1 n2 n3 n4)
    | web =>
      exact (rget_web_parse_eq_base now r key n10 n11 n12 n13 n14 n15).trans
        (rget_base_parse_ne now r key n1 n2 n3 n4)
  refine ⟨?_, ?_, frame⟩
  · rw [frame "_file_source" (by decide)]; exact h1
  · rw [frame "_line_number" (by decide)]; exact h2

/-- C9 witness: a concrete record with provenance, under the syslog parser. -/
theorem c9_provenance_witness :
    rget (parseWith ParserKind.syslog "NOW"
      [("message", vStr "boot ok"), ("_file_source", vStr "a.log"),
       ("_line_number", vInt 3)]) "_file_source" = some (vStr "a.log") ∧
    rget (parseWith ParserKind.syslog "NOW"
      [("message", vStr "boot ok"), ("_file_source", vStr "a.log"),
       ("_line_number", vInt 3)]) "_line_number" = some (vInt 3) ∧
    (∀ key : String,
      key ∉ ["timestamp", "ip_addresses", "users", "log_level",
        "syslog_facility", "syslog_severity", "hostname", "program",
        "parsed_message", "client_ip", "http_method", "url", "http_protocol",
        "status_code", "response_size"] →
      rget (parseWith ParserKind.syslog "NOW"
        [("message", vStr "boot ok"), ("_file_source", vStr "a.log"),
         ("_line_number", vInt 3)]) key =
      rget [("message", vStr "boot ok"), ("_file_source", vStr "a.log"),
         ("_line_number", vInt 3)] key) :=
  c9_provenance ParserKind.syslog "NOW"
    [("message", vStr "boot ok"), ("_file_source", vStr "a.log"),
     ("_line_number", vInt 3)] (vStr "a.log") (vInt 3) rfl rfl rfl

/-- C1 counterexample: on the spec's syslog scenario line the level
classifier returns `INFO`, not the claimed `ERROR` — `error_patterns` is
`\b(error|fail|exception|critical)\b` and `\bfail\b` does not match inside
the word `Failed`. -/
theorem c1_scenario_counterexample :
    rget (SyslogParser.parse "2025-08-20T17:02:01"
        [("message", vStr "<34>Aug 20 17:02:01 server1 sshd: Failed password for user from 192.168.1.100 port 22 ssh2")])
      "log_level" = some (vStr "INFO") ∧
    some (vStr "INFO") ≠ some (vStr "ERROR") := by
  refine ⟨rfl, fun h => ?_⟩
  exact absurd (Value.vStr.inj (Option.some.inj h)) (by decide)

/-- C1 amended: the scenario record parses to facility 4, severity 2,
hostname `server1`, program `sshd`, the single extracted address
`192.168.1.100` — and log level `INFO` (not `ERROR`: no word of
`error_patterns` occurs as a whole word in the message). -/
theorem c1_scenario (now : String) :
    rget (SyslogParser.parse now
        [("message", vStr "<34>Aug 20 17:02:01 server1 sshd: Failed password for user from 192.168.1.100 port 22 ssh2")])
      "syslog_facility" = some (vInt 4) ∧
    rget (SyslogParser.parse now
        [("message", vStr "<34>Aug 20 17:02:01 server1 sshd: Failed password for user from 192.168.1.100 port 22 ssh2")])
      "syslog_severity" = some (vInt 2) ∧
    rget (SyslogParser.parse now
        [("message", vStr "<34>Aug 20 17:02:01 server1 sshd: Failed password for user from 192.168.1.100 port 22 ssh2")])
      "hostname" = some (vStr "server1") ∧
    rget (SyslogParser.parse now
        [("message", vStr "<34>Aug 20 17:02:01 server1 sshd: Failed password for user from 192.168.1.100 port 22 ssh2")])
      "program" = some (vStr "sshd") ∧
    rget (SyslogParser.parse now
        [("message", vStr "<34>Aug 20 17:02:01 server1 sshd: Failed password for user from 192.168.1.100 port 22 ssh2")])
      "ip_addresses" = some (vList [vStr "192.168.1.100"]) ∧
    rget (SyslogParser.parse now
        [("message", vStr "<34>Aug 20 17:02:01 server1 sshd: Failed password for user from 192.168.1.100 port 22 ssh2")])
      "log_level" = some (vStr "INFO") :=
  ⟨rfl, rfl, rfl, rfl, rfl, rfl⟩

/-- C7 helper: when no line of the file decodes to a non-object JSON value,
`_ingest_json` emits exactly the records the spec describes, and the counts
add up. -/
theorem ingest_json_spec (path : String) (lines : List String) (n : Nat)
    (h : ∀ l ∈ lines, blankLine l = true ∨ jsonLoads l = none ∨
      ∃ f, jsonLoads l = some (vObj f)) :
    ingest_json path n lines = specJsonOut path n lines ∧
    (ingest_json path n lines).length + lines.countP blankLine +
      lines.countP malformedLine = lines.length := by
  induction lines generalizing n with
  | nil => simp [ingest_json, specJsonOut, enumFrom]
  | cons line rest ih =>
    have hline := h line (List.mem_cons_self line rest)
    have hrest := fun l hl => h l (List.mem_cons_of_mem line hl)
    obtain ⟨ihe, ihl⟩ := ih (n + 1) hrest
    by_cases hb : blankLine line = true
    · have hm : malformedLine line = false := by
        simp [malformedLine, hb]
      have hstep : ingest_json path n (line :: rest) =
          ingest_json path (n + 1) rest := by
        simp only [ingest_json, hb, if_true]
      have hspec : specJsonOut path n (line :: rest) =
          specJsonOut path (n + 1) rest := by
        simp only [specJsonOut, enumFrom, List.filterMap_cons, hb, if_true]
      refine ⟨hstep.trans (ihe.trans hspec.symm), ?_⟩
      rw [hstep, List.countP_cons, List.countP_cons, hb, hm, List.length_cons]
      simp
      omega
    · have hbf : blankLine line = false := by
        simpa using hb
      have hmm : malformedLine line = (jsonLoads line).isNone := by
        simp [malformedLine, hbf]
      rcases hline with hx | hx | ⟨f, hx⟩
      · exact absurd hx hb
      · have hstep : ingest_json path n (line :: rest) =
            ingest_json path (n + 1) rest := by
          simp only [ingest_json, hbf, Bool.false_eq_true, if_false, hx]
        have hspec : specJsonOut path n (line :: rest) =
            specJsonOut path (n + 1) rest := by
          simp only [specJsonOut, enumFrom, List.filterMap_cons, hbf,
            Bool.false_eq_true, if_false, hx]
        refine ⟨hstep.trans (ihe.trans hspec.symm), ?_⟩
        rw [hstep, List.countP_cons, List.countP_cons, hbf, hmm, hx,
          List.length_cons]
        simp
        omega
      · have hstep : ingest_json path n (line :: rest) =
            rset (rset f "_file_source" (vStr path)) "_line_number" (vInt n)
              :: ingest_json path (n + 1) rest := by
          simp only [ingest_json, hbf, Bool.false_eq_true, if_false, hx]
        have hspec : specJsonOut path n (line :: rest) =
            rset (rset f "_file_source" (vStr path)) "_line_number" (vInt n)
              :: specJsonOut path (n + 1) rest := by
          simp only [specJsonOut, enumFrom, List.filterMap_cons, hbf,
            Bool.false_eq_true, if_false, hx]
        constructor
        · rw [hstep, hspec, ihe]
        · rw [hstep, List.length_cons, List.countP_cons, List.countP_cons,
            hbf, hmm, hx]
          simp
          omega

/-- C7 amended: for a `.json` file none of whose lines decodes to a
non-object JSON value, `ingest_file` yields one provenance-tagged RawRecord
per non-blank JSON-object line, in line order; malformed lines are skipped
without stopping ingestion, and the output length is the line count minus
blank lines minus malformed lines.  (A line holding a valid non-object JSON
value would abort the rest of the file — see the counterexample.) -/
theorem c7_json_skip (fs : FileSys) (now path : String)
    (hex : pathExists fs path = true)
    (hsuf : String.mk (lowerL (pathSuffix path).toList) = ".json")
    (h : ∀ l ∈ fileLines fs path, blankLine l = true ∨ jsonLoads l = none ∨
      ∃ f, jsonLoads l = some (vObj f)) :
    ingest_file fs now path = specJsonOut path 1 (fileLines fs path) ∧
    (ingest_file fs now path).length =
      (fileLines fs path).length - (fileLines fs path).countP blankLine -
        (fileLines fs path).countP malformedLine := by
  have hif : ingest_file fs now path = ingest_json path 1 (fileLines fs path) := by
    have hsuf2 : String.mk (lowerL (pathSuffix path).data) = ".json" := hsuf
    unfold ingest_file
    rw [hex]
    simp [hsuf2]
  obtain ⟨he, hl⟩ := ingest_json_spec path (fileLines fs path) 1 h
  refine ⟨hif.trans he, ?_⟩
  rw [hif]
  omega

/-- C7 witness: a four-line `.json` file with one blank and one malformed
line yields 4 − 1 − 1 = 2 records. -/
theorem c7_json_skip_witness :
    ingest_file
        { files := [("a.json",
            ["\x7b\"a\": 1\x7d", "", "\x7bbad json", "\x7b\"b\": 2\x7d"])], dirs := [] }
        "NOW" "a.json" =
      specJsonOut "a.json" 1
        (fileLines
          { files := [("a.json",
              ["\x7b\"a\": 1\x7d", "", "\x7bbad json", "\x7b\"b\": 2\x7d"])], dirs := [] }
          "a.json") ∧
    (ingest_file
        { files := [("a.json",
            ["\x7b\"a\": 1\x7d", "", "\x7bbad json", "\x7b\"b\": 2\x7d"])], dirs := [] }
        "NOW" "a.json").length =
      (fileLines
          { files := [("a.json",
              ["\x7b\"a\": 1\x7d", "", "\x7bbad json", "\x7b\"b\": 2\x7d"])], dirs := [] }
          "a.json").length -
        (fileLines
            { files := [("a.json",
                ["\x7b\"a\": 1\x7d", "", "\x7bbad json", "\x7b\"b\": 2\x7d"])], dirs := [] }
            "a.json").countP blankLine -
        (fileLines
            { files := [("a.json",
                ["\x7b\"a\": 1\x7d", "", "\x7bbad json", "\x7b\"b\": 2\x7d"])], dirs := [] }
            "a.json").countP malformedLine :=
  c7_json_skip
    { files := [("a.json",
        ["\x7b\"a\": 1\x7d", "", "\x7bbad json", "\x7b\"b\": 2\x7d"])], dirs := [] }
    "NOW" "a.json" rfl rfl
    (by
      intro l hl
      have hl' : l ∈ ["\x7b\"a\": 1\x7d", "", "\x7bbad json", "\x7b\"b\": 2\x7d"] := hl
      simp only [List.mem_cons, List.not_mem_nil, or_false] at hl'
      rcases hl' with h1 | h2 | h3 | h4
      · exact Or.inr (Or.inr ⟨[("a", vInt 1)], by subst h1; rfl⟩)
      · exact Or.inl (by subst h2; rfl)
      · exact Or.inr (Or.inl (by subst h3; rfl))
      · exact Or.inr (Or.inr ⟨[("b", vInt 2)], by subst h4; rfl⟩))

/-- C7 counterexample: a `.json` file whose middle line is the valid
non-object JSON value `5` — the `TypeError` raised by
`entry['_file_source'] = ...` is caught by the outer handler and ends the
generator, so only one record is produced although the file has three
non-blank lines and no malformed line: the claimed length formula
3 − 0 − 0 = 3 fails. -/
theorem c7_counterexample :
    (ingest_file
        { files := [("a.json", ["\x7b\"a\": 1\x7d", "5", "\x7b\"b\": 2\x7d"])], dirs := [] }
        "NOW" "a.json").length = 1 ∧
    (["\x7b\"a\": 1\x7d", "5", "\x7b\"b\": 2\x7d"] : List String).countP blankLine = 0 ∧
    (["\x7b\"a\": 1\x7d", "5", "\x7b\"b\": 2\x7d"] : List String).countP malformedLine = 0 ∧
    (["\x7b\"a\": 1\x7d", "5", "\x7b\"b\": 2\x7d"] : List String).length = 3 ∧
    (1 : Nat) ≠ 3 - 0 - 0 := by
  refine ⟨rfl, rfl, rfl, rfl, by decide⟩

theorem boundaryAfter_iff (l : List Char) :
    boundaryAfter l = true ↔ (l = [] ∨ ∃ c, l.head? = some c ∧ isWordC c = false) := by
  cases l <;> simp [boundaryAfter]

theorem containsSub_iff (n l : List Char) :
    containsSub n l = true ↔ SubOccurs n l := by
  induction l with
  | nil =>
    simp only [containsSub, List.isEmpty_iff, SubOccurs]
    constructor
    · rintro rfl; exact ⟨[], [], rfl⟩
    · rintro ⟨pre, post, h⟩
      rcases List.append_eq_nil.mp (List.append_eq_nil.mp h.symm).1 with ⟨-, h2⟩
      exact h2
  | cons c t ih =>
    simp only [containsSub, Bool.or_eq_true, ih, SubOccurs]
    constructor
    · rintro (hp | ⟨pre, post, rfl⟩)
      · obtain ⟨post, hpost⟩ := List.isPrefixOf_iff_prefix.mp hp
        exact ⟨[], post, by simp [← hpost]⟩
      · exact ⟨c :: pre, post, rfl⟩
    · rintro ⟨pre, post, hl⟩
      cases pre with
      | nil =>
        left
        rw [List.isPrefixOf_iff_prefix]
        exact ⟨post, by simpa using hl.symm⟩
      | cons c' pre' =>
        right
        simp only [List.cons_append, List.cons.injEq] at hl
        exact ⟨pre', post, hl.2⟩

theorem wordHere_iff (ws : List (List Char)) (prev : Bool) (h : List Char) :
    wordHere ws prev h = true ↔
      (prev = false ∧ ∃ w ∈ ws, ∃ post, h = w ++ post ∧
        (post = [] ∨ ∃ c, post.head? = some c ∧ isWordC c = false)) := by
  simp only [wordHere, Bool.and_eq_true, Bool.not_eq_true', List.any_eq_true]
  refine and_congr_right fun _ => ⟨?_, ?_⟩
  · rintro ⟨w, hwm, hand⟩
    have hand2 : w.isPrefixOf h = true ∧ boundaryAfter (h.drop w.length) = true := by
      simpa using hand
    obtain ⟨hp, hbd⟩ := hand2
    obtain ⟨post, hpost⟩ := List.isPrefixOf_iff_prefix.mp hp
    refine ⟨w, hwm, post, hpost.symm, ?_⟩
    rw [← hpost, List.drop_left] at hbd
    exact (boundaryAfter_iff post).mp hbd
  · rintro ⟨w, hwm, post, rfl, hbd⟩
    refine ⟨w, hwm, ?_⟩
    have h1 : w.isPrefixOf (w ++ post) = true :=
      List.isPrefixOf_iff_prefix.mpr ⟨post, rfl⟩
    have h2 : boundaryAfter post = true := (boundaryAfter_iff post).mpr hbd
    simp [h1, List.drop_left, h2]

theorem wordSearchAux_iff (ws : List (List Char)) (hw : ∀ w ∈ ws, w ≠ [])
    (prev : Bool) (l : List Char) :
    wordSearchAux ws prev l = true ↔
      ∃ w ∈ ws, ∃ pre post, l = pre ++ w ++ post ∧
        ((pre = [] ∧ prev = false) ∨
          ∃ c, pre.getLast? = some c ∧ isWordC c = false) ∧
        (post = [] ∨ ∃ c, post.head? = some c ∧ isWordC c = false) := by
  induction l generalizing prev with
  | nil =>
    constructor
    · intro hx; simp [wordSearchAux] at hx
    · rintro ⟨w, hwm, pre, post, hl, -, -⟩
      have h2 := List.append_eq_nil.mp (List.append_eq_nil.mp hl.symm).1
      exact absurd h2.2 (hw w hwm)
  | cons c t ih =>
    simp only [wordSearchAux, Bool.or_eq_true, wordHere_iff, ih (isWordC c)]
    constructor
    · rintro (⟨hprev, w, hwm, post, hl, hbd⟩ | ⟨w, hwm, pre', post, hl, hpre, hbd⟩)
      · exact ⟨w, hwm, [], post, by simpa using hl, Or.inl ⟨rfl, hprev⟩, hbd⟩
      · refine ⟨w, hwm, c :: pre', post, by simp [hl], ?_, hbd⟩
        rcases hpre with ⟨rfl, hc⟩ | ⟨c', hc', hcw⟩
        · exact Or.inr ⟨c, by simp, hc⟩
        · refine Or.inr ⟨c', ?_, hcw⟩
          cases pre' with
          | nil => simp at hc'
          | cons a b => simpa [List.getLast?_cons_cons] using hc'
    · rintro ⟨w, hwm, pre, post, hl, hpre, hbd⟩
      cases pre with
      | nil =>
        left
        rcases hpre with ⟨-, hprev⟩ | ⟨c', hc', -⟩
        · exact ⟨hprev, w, hwm, post, by simpa using hl, hbd⟩
        · simp at hc'
      | cons c' pre' =>
        right
        simp only [List.cons_append, List.cons.injEq] at hl
        obtain ⟨rfl, hl2⟩ := hl
        refine ⟨w, hwm, pre', post, hl2, ?_, hbd⟩
        rcases hpre with ⟨habs, -⟩ | ⟨c₀, hc₀, hcw⟩
        · exact absurd habs (by simp)
        · cases pre' with
          | nil =>
            simp only [List.getLast?_singleton, Option.some.injEq] at hc₀
            exact Or.inl ⟨rfl, hc₀ ▸ hcw⟩
          | cons a b =>
            rw [List.getLast?_cons_cons] at hc₀
            exact Or.inr ⟨c₀, hc₀, hcw⟩

theorem wordSearch_iff (ws : List (List Char)) (hw : ∀ w ∈ ws, w ≠ [])
    (l : List Char) :
    wordSearch ws l = true ↔ ∃ w ∈ ws, WordOcc w l := by
  rw [wordSearch, wordSearchAux_iff ws hw false l]
  unfold WordOcc
  constructor
  · rintro ⟨w, hwm, pre, post, hl, hpre, hbd⟩
    refine ⟨w, hwm, pre, post, hl, ?_, hbd⟩
    rcases hpre with ⟨rfl, -⟩ | hx
    · exact Or.inl rfl
    · exact Or.inr hx
  · rintro ⟨w, hwm, pre, post, hl, hpre, hbd⟩
    refine ⟨w, hwm, pre, post, hl, ?_, hbd⟩
    rcases hpre with rfl | hx
    · exact Or.inl ⟨rfl, rfl⟩
    · exact Or.inr hx

/-- C4 counterexample: the claim reads the first rule as the boundary-less
pattern `error|fail|exception|critical`, which as a substring search matches
inside `failed`; but `_classify_log_level` uses
`\b(error|fail|exception|critical)\b`, which does not, so the message
`failed` is classified `INFO`, not `ERROR`. -/
theorem c4_counterexample :
    SubOccurs (String.toList "fail") (lowerL (String.toList "failed")) ∧
    classify_log_level (String.toList "failed") = "INFO" ∧
    ("INFO" : String) ≠ "ERROR" :=
  ⟨⟨[], ['e', 'd'], rfl⟩, rfl, by decide⟩

/-- C4 amended: `_classify_log_level` searches the lowered message in fixed
priority order with *word-boundary* patterns — `\b(error|fail|exception|critical)\b`
⇒ ERROR; else `\b(warn|warning|alert)\b` ⇒ WARNING; else substring
`info`/`information` ⇒ INFO; else substring `debug` ⇒ DEBUG; else the
default INFO.  The first matching rule wins. -/
theorem c4_classify (s : String) :
    (classify_log_level s.toList = "ERROR" ↔
      ∃ w ∈ errorWords, WordOcc w (lowerL s.toList)) ∧
    (classify_log_level s.toList = "WARNING" ↔
      (¬ ∃ w ∈ errorWords, WordOcc w (lowerL s.toList)) ∧
      ∃ w ∈ warningWords, WordOcc w (lowerL s.toList)) ∧
    (classify_log_level s.toList = "DEBUG" ↔
      (¬ ∃ w ∈ errorWords, WordOcc w (lowerL s.toList)) ∧
      (¬ ∃ w ∈ warningWords, WordOcc w (lowerL s.toList)) ∧
      ¬ (SubOccurs infoChars (lowerL s.toList) ∨
         SubOccurs informationChars (lowerL s.toList)) ∧
      SubOccurs debugChars (lowerL s.toList)) ∧
    (classify_log_level s.toList = "INFO" ↔
      (¬ ∃ w ∈ errorWords, WordOcc w (lowerL s.toList)) ∧
      (¬ ∃ w ∈ warningWords, WordOcc w (lowerL s.toList)) ∧
      ((SubOccurs infoChars (lowerL s.toList) ∨
        SubOccurs informationChars (lowerL s.toList)) ∨
       ¬ SubOccurs debugChars (lowerL s.toList))) := by
  have herr := wordSearch_iff errorWords (by decide) (lowerL s.toList)
  have hwarn := wordSearch_iff warningWords (by decide) (lowerL s.toList)
  have hi1 := containsSub_iff infoChars (lowerL s.toList)
  have hi2 := containsSub_iff informationChars (lowerL s.toList)
  have hd := containsSub_iff debugChars (lowerL s.toList)
  rw [← herr, ← hwarn, ← hi1, ← hi2, ← hd]
  clear herr hwarn hi1 hi2 hd
  simp only [classify_log_level]
  generalize lowerL s.toList = m
  have hne1 : ("ERROR" : String) ≠ "WARNING" := by decide
  have hne2 : ("ERROR" : String) ≠ "DEBUG" := by decide
  have hne3 : ("ERROR" : String) ≠ "INFO" := by decide
  have hne4 : ("WARNING" : String) ≠ "DEBUG" := by decide
  have hne5 : ("WARNING" : String) ≠ "INFO" := by decide
  have hne6 : ("DEBUG" : String) ≠ "INFO" := by decide
  by_cases e : wordSearch errorWords m = true <;>
  by_cases w : wordSearch warningWords m = true <;>
  by_cases i1 : containsSub infoChars m = true <;>
  by_cases i2 : containsSub informationChars m = true <;>
  by_cases d : containsSub debugChars m = true <;>
  simp [e, w, i1, i2, d, hne1, hne2, hne3, hne4, hne5, hne6,
    hne1.symm, hne2.symm, hne3.symm, hne4.symm, hne5.symm, hne6.symm]

/-- C6 helper: every parser stores `classify_log_level` of the message in
`log_level`. -/
theorem rget_parse_log_level (k : ParserKind) (now : String) (r : Record) :
    rget (parseWith k now r) "log_level" =
      some (vStr (classify_log_level (getMessage r).toList)) := by
  cases k with
  | generic => exact rget_base_parse_log_level now r
  | syslog =>
    exact (rget_syslog_parse_eq_base now r _ (by decide) (by decide) (by decide)
      (by decide) (by decide)).trans (rget_base_parse_log_level now r)
  | web =>
    exact (rget_web_parse_eq_base now r _ (by decide) (by decide) (by decide)
      (by decide) (by decide) (by decide)).trans (rget_base_parse_log_level now r)

/-- C6 helper: every parser stores the deduplicated address list in
`ip_addresses`. -/
theorem rget_parse_ips (k : ParserKind) (now : String) (r : Record) :
    rget (parseWith k now r) "ip_addresses" =
      some (vList ((extract_ip_addresses (getMessage r).toList).map vStr)) := by
  cases k with
  | generic => exact rget_base_parse_ips now r
  | syslog =>
    exact (rget_syslog_parse_eq_base now r _ (by decide) (by decide) (by decide)
      (by decide) (by decide)).trans (rget_base_parse_ips now r)
  | web =>
    exact (rget_web_parse_eq_base now r _ (by decide) (by decide) (by decide)
      (by decide) (by decide) (by decide)).trans (rget_base_parse_ips now r)

/-- C6 helper: every parser stores the deduplicated user list in `users`. -/
theorem rget_parse_users (k : ParserKind) (now : String) (r : Record) :
    rget (parseWith k now r) "users" =
      some (vList ((extract_users (getMessage r).toList).map vStr)) := by
  cases k with
  | generic => exact rget_base_parse_users now r
  | syslog =>
    exact (rget_syslog_parse_eq_base now r _ (by decide) (by decide) (by decide)
      (by decide) (by decide)).trans (rget_base_parse_users now r)
  | web =>
    exact (rget_web_parse_eq_base now r _ (by decide) (by decide) (by decide)
      (by decide) (by decide) (by decide)).trans (rget_base_parse_users now r)

/-- C6 helper: the classifier only ever produces the four enumerated
levels. -/
theorem classify_mem_enum (msg : List Char) :
    classify_log_level msg = "ERROR" ∨ classify_log_level msg = "WARNING" ∨
    classify_log_level msg = "INFO" ∨ classify_log_level msg = "DEBUG" := by
  simp only [classify_log_level]
  split_ifs <;> simp

/-- C6 helper: the classifier is a function of the case-folded message. -/
theorem classify_lower_invariant (s t : List Char) (h : lowerL s = lowerL t) :
    classify_log_level s = classify_log_level t := by
  simp only [classify_log_level]
  rw [h]

/-- C6: for every record (whose `message` is a string or absent, the domain
on which the Python code does not raise) and every parser, `log_level` is
exactly one of ERROR/WARNING/INFO/DEBUG and depends only on the case-folded
message, and `ip_addresses` and `users` hold no duplicates — each extracted
address occurs exactly once however often the scanners matched it. -/
theorem c6_invariants (k : ParserKind) (now : String) (r : Record)
    (_hm : msgOkB r = true) :
    (∃ lv : String, rget (parseWith k now r) "log_level" = some (vStr lv) ∧
      (lv = "ERROR" ∨ lv = "WARNING" ∨ lv = "INFO" ∨ lv = "DEBUG")) ∧
    (∀ s t : List Char, lowerL s = lowerL t →
      classify_log_level s = classify_log_level t) ∧
    (∃ ips : List String,
      rget (parseWith k now r) "ip_addresses" = some (vList (ips.map vStr)) ∧
      ips.Nodup ∧
      (∀ a : String, a ∈ ips ↔
        a ∈ (findallIpv4 (getMessage r).toList ++
          findallIpv6 (getMessage r).toList).map fun l => String.mk l) ∧
      (∀ a : String,
        a ∈ (findallIpv4 (getMessage r).toList ++
          findallIpv6 (getMessage r).toList).map (fun l => String.mk l) →
        ips.count a = 1)) ∧
    (∃ us : List String,
      rget (parseWith k now r) "users" = some (vList (us.map vStr)) ∧
      us.Nodup) := by
  refine ⟨⟨classify_log_level (getMessage r).toList,
      rget_parse_log_level k now r, classify_mem_enum _⟩,
    classify_lower_invariant,
    ⟨extract_ip_addresses (getMessage r).toList, rget_parse_ips k now r,
      ?_, ?_, ?_⟩,
    ⟨extract_users (getMessage r).toList, rget_parse_users k now r, ?_⟩⟩
  · exact List.nodup_dedup _
  · intro a
    exact List.mem_dedup
  · intro a ha
    exact List.count_eq_one_of_mem (List.nodup_dedup _)
      (List.mem_dedup.mpr ha)
  · exact List.nodup_dedup _

/-- C6 witness: a record whose message repeats an address. -/
theorem c6_invariants_witness :
    (∃ lv : String,
      rget (parseWith ParserKind.generic "NOW"
        [("message", vStr "user bob at 1.2.3.4 then 1.2.3.4 again")])
        "log_level" = some (vStr lv) ∧
      (lv = "ERROR" ∨ lv = "WARNING" ∨ lv = "INFO" ∨ lv = "DEBUG")) ∧
    (∀ s t : List Char, lowerL s = lowerL t →
      classify_log_level s = classify_log_level t) ∧
    (∃ ips : List String,
      rget (parseWith ParserKind.generic "NOW"
        [("message", vStr "user bob at 1.2.3.4 then 1.2.3.4 again")])
        "ip_addresses" = some (vList (ips.map vStr)) ∧
      ips.Nodup ∧
      (∀ a : String, a ∈ ips ↔
        a ∈ (findallIpv4 (getMessage
            [("message", vStr "user bob at 1.2.3.4 then 1.2.3.4 again")]).toList ++
          findallIpv6 (getMessage
            [("message", vStr "user bob at 1.2.3.4 then 1.2.3.4 again")]).toList).map
          fun l => String.mk l) ∧
      (∀ a : String,
        a ∈ (findallIpv4 (getMessage
            [("message", vStr "user bob at 1.2.3.4 then 1.2.3.4 again")]).toList ++
          findallIpv6 (getMessage
            [("message", vStr "user bob at 1.2.3.4 then 1.2.3.4 again")]).toList).map
          (fun l => String.mk l) →
        ips.count a = 1)) ∧
    (∃ us : List String,
      rget (parseWith ParserKind.generic "NOW"
        [("message", vStr "user bob at 1.2.3.4 then 1.2.3.4 again")])
        "users" = some (vList (us.map vStr)) ∧
      us.Nodup) :=
  c6_invariants ParserKind.generic "NOW"
    [("message", vStr "user bob at 1.2.3.4 then 1.2.3.4 again")] rfl

/-- C3 helper: away from the `timestamp` key the base parse result does not
depend on the clock. -/
theorem rget_base_parse_clock (now1 now2 : String) (r : Record) (key : String)
    (hk : key ≠ "timestamp") :
    rget (LogParser.parse now1 r) key = rget (LogParser.parse now2 r) key := by
  by_cases h1 : key = "log_level"
  · subst h1; rw [rget_base_parse_log_level, rget_base_parse_log_level]
  by_cases h2 : key = "users"
  · subst h2; rw [rget_base_parse_users, rget_base_parse_users]
  by_cases h3 : key = "ip_addresses"
  · subst h3; rw [rget_base_parse_ips, rget_base_parse_ips]
  rw [rget_base_parse_ne now1 r key hk h3 h2 h1,
    rget_base_parse_ne now2 r key hk h3 h2 h1]

/-- C3 helper: when the record already has a `timestamp` key, or the message
contains an ISO timestamp, or no syslog-style timestamp, `_extract_timestamp`
does not consult the clock and the base parse is clock-independent. -/
theorem base_parse_clock_eq (now1 now2 : String) (r : Record)
    (h : (rget r "timestamp").isSome ∨
      (searchShape shapeIso (getMessage r).toList).isSome ∨
      commonTsSearch (getMessage r).toList = false) :
    LogParser.parse now1 r = LogParser.parse now2 r := by
  cases hrt : rget r "timestamp" with
  | some v => simp only [LogParser.parse, hrt]
  | none =>
    have hext : extract_timestamp now1 (getMessage r).toList =
        extract_timestamp now2 (getMessage r).toList := by
      unfold extract_timestamp
      cases hiso : searchShape shapeIso (getMessage r).toList with
      | some t => rfl
      | none =>
        rcases h with hx | hx | hx
        · rw [hrt] at hx; exact absurd hx (by simp)
        · rw [hiso] at hx; exact absurd hx (by simp)
        · have hx2 : commonTsSearch (getMessage r).data = false := hx
          simp [hx, hx2]
    simp only [LogParser.parse, hrt, hext]

/-- C3 counterexample: parsing the same record at two different wall-clock
instants (the explicit `now` argument models `datetime.now()`) yields
different ParsedRecord content — the message matches the syslog-style
timestamp pattern and the record has no `timestamp` key, so `timestamp`
receives the clock reading. -/
theorem c3_counterexample :
    LogParser.parse "2025-01-01T00:00:00"
        [("message", vStr "Aug 20 17:02:01 boot sequence")] ≠
      LogParser.parse "2025-01-01T00:00:01"
        [("message", vStr "Aug 20 17:02:01 boot sequence")] := by
  intro h
  have h2 := congrArg (fun rec => rget rec "timestamp") h
  have e1 : rget (LogParser.parse "2025-01-01T00:00:00"
      [("message", vStr "Aug 20 17:02:01 boot sequence")]) "timestamp" =
      some (vStr "2025-01-01T00:00:00") := rfl
  have e2 : rget (LogParser.parse "2025-01-01T00:00:01"
      [("message", vStr "Aug 20 17:02:01 boot sequence")]) "timestamp" =
      some (vStr "2025-01-01T00:00:01") := rfl
  simp only [e1, e2] at h2
  exact absurd (Value.vStr.inj (Option.some.inj h2)) (by decide)

/-- C3 amended: parsing is a pure function of the record and the clock.  Two
parses of the same record agree on every field except possibly `timestamp`,
and agree completely whenever the record already carries a `timestamp` key,
or the message contains an ISO timestamp, or it contains no syslog-style
timestamp — the one remaining case is the `datetime.now()` branch of
`_extract_timestamp`, whose result changes with the clock. -/
theorem c3_pure_parse (k : ParserKind) (r : Record) (now1 now2 : String)
    (_hm : msgOkB r = true) :
    (∀ key : String, key ≠ "timestamp" →
      rget (parseWith k now1 r) key = rget (parseWith k now2 r) key) ∧
    ((rget r "timestamp").isSome ∨
      (searchShape shapeIso (getMessage r).toList).isSome ∨
      commonTsSearch (getMessage r).toList = false →
      parseWith k now1 r = parseWith k now2 r) := by
  constructor
  · intro key hk
    cases k with
    | generic => exact rget_base_parse_clock now1 now2 r key hk
    | syslog =>
      show rget (SyslogParser.parse now1 r) key =
        rget (SyslogParser.parse now2 r) key
      cases hm : syslogMatch (getMessage r).toList with
      | none =>
        simp only [SyslogParser.parse, hm]
        exact rget_base_parse_clock now1 now2 r key hk
      | some g =>
        obtain ⟨pri, ts, host, prog, m⟩ := g
        simp only [SyslogParser.parse, hm]
        by_cases k5 : key = "parsed_message"
        · subst k5; rw [rget_rset_self, rget_rset_self]
        rw [rget_rset_ne _ _ _ _ (Ne.symm k5), rget_rset_ne _ _ _ _ (Ne.symm k5)]
        by_cases k4 : key = "program"
        · subst k4; rw [rget_rset_self, rget_rset_self]
        rw [rget_rset_ne _ _ _ _ (Ne.symm k4), rget_rset_ne _ _ _ _ (Ne.symm k4)]
        by_cases k3 : key = "hostname"
        · subst k3; rw [rget_rset_self, rget_rset_self]
        rw [rget_rset_ne _ _ _ _ (Ne.symm k3), rget_rset_ne _ _ _ _ (Ne.symm k3)]
        by_cases k2 : key = "syslog_severity"
        · subst k2; rw [rget_rset_self, rget_rset_self]
        rw [rget_rset_ne _ _ _ _ (Ne.symm k2), rget_rset_ne _ _ _ _ (Ne.symm k2)]
        by_cases k1 : key = "syslog_facility"
        · subst k1; rw [rget_rset_self, rget_rset_self]
        rw [rget_rset_ne _ _ _ _ (Ne.symm k1), rget_rset_ne _ _ _ _ (Ne.symm k1)]
        exact rget_base_parse_clock now1 now2 r key hk
    | web =>
      show rget (WebLogParser.parse now1 r) key =
        rget (WebLogParser.parse now2 r) key
      cases hm : webMatch (getMessage r).toList with
      | none =>
        simp only [WebLogParser.parse, hm]
        exact rget_base_parse_clock now1 now2 r key hk
      | some g =>
        obtain ⟨ip, ts, method, url, proto, status, size⟩ := g
        simp only [WebLogParser.parse, hm]
        by_cases k6 : key = "response_size"
        · subst k6; rw [rget_rset_self, rget_rset_self]
        rw [rget_rset_ne _ _ _ _ (Ne.symm k6), rget_rset_ne _ _ _ _ (Ne.symm k6)]
        by_cases k5 : key = "status_code"
        · subst k5; rw [rget_rset_self, rget_rset_self]
        rw [rget_rset_ne _ _ _ _ (Ne.symm k5), rget_rset_ne _ _ _ _ (Ne.symm k5)]
        by_cases k4 : key = "http_protocol"
        · subst k4; rw [rget_rset_self, rget_rset_self]
        rw [rget_rset_ne _ _ _ _ (Ne.symm k4), rget_rset_ne _ _ _ _ (Ne.symm k4)]
        by_cases k3 : key = "url"
        · subst k3; rw [rget_rset_self, rget_rset_self]
        rw [rget_rset_ne _ _ _ _ (Ne.symm k3), rget_rset_ne _ _ _ _ (Ne.symm k3)]
        by_cases k2 : key = "http_method"
        · subst k2; rw [rget_rset_self, rget_rset_self]
        rw [rget_rset_ne _ _ _ _ (Ne.symm k2), rget_rset_ne _ _ _ _ (Ne.symm k2)]
        by_cases k1 : key = "client_ip"
        · subst k1; rw [rget_rset_self, rget_rset_self]
        rw [rget_rset_ne _ _ _ _ (Ne.symm k1), rget_rset_ne _ _ _ _ (Ne.symm k1)]
        exact rget_base_parse_clock now1 now2 r key hk
  · intro h
    have hb := base_parse_clock_eq now1 now2 r h
    cases k with
    | generic => exact hb
    | syslog =>
      show SyslogParser.parse now1 r = SyslogParser.parse now2 r
      unfold SyslogParser.parse
      rw [hb]
    | web =>
      show WebLogParser.parse now1 r = WebLogParser.parse now2 r
      unfold WebLogParser.parse
      rw [hb]

/-- C3 witness: a record already carrying a `timestamp` key parses
identically at two different clock readings. -/
theorem c3_pure_parse_witness :
    (∀ key : String, key ≠ "timestamp" →
      rget (parseWith ParserKind.generic "T1"
        [("message", vStr "Aug 20 17:02:01 boot"), ("timestamp", vStr "t0")])
        key =
      rget (parseWith ParserKind.generic "T2"
        [("message", vStr "Aug 20 17:02:01 boot"), ("timestamp", vStr "t0")])
        key) ∧
    ((rget [("message", vStr "Aug 20 17:02:01 boot"),
        ("timestamp", vStr "t0")] "timestamp").isSome ∨
      (searchShape shapeIso (getMessage [("message", vStr "Aug 20 17:02:01 boot"),
        ("timestamp", vStr "t0")]).toList).isSome ∨
      commonTsSearch (getMessage [("message", vStr "Aug 20 17:02:01 boot"),
        ("timestamp", vStr "t0")]).toList = false →
      parseWith ParserKind.generic "T1"
        [("message", vStr "Aug 20 17:02:01 boot"), ("timestamp", vStr "t0")] =
      parseWith ParserKind.generic "T2"
        [("message", vStr "Aug 20 17:02:01 boot"), ("timestamp", vStr "t0")]) :=
  c3_pure_parse ParserKind.generic
    [("message", vStr "Aug 20 17:02:01 boot"), ("timestamp", vStr "t0")]
    "T1" "T2" rfl

/-- C2 counterexample: on a Common Log Format line with numeric size `123`,
`WebLogParser.parse` stores `response_size` as the *string* `"123"`
(`size if size != '-' else 0` never converts), not the integer 123 the
claim asserts. -/
theorem c2_counterexample :
    rget (WebLogParser.parse "NOW"
        [("message", vStr "127.0.0.1 - - [10/Oct/2020:13:55:36] \"GET /index.html HTTP/1.0\" 200 123")])
      "response_size" = some (vStr "123") ∧
    some (vStr "123") ≠ some (vInt (123 : Int)) := by
  refine ⟨rfl, fun h => ?_⟩
  exact Value.noConfusion (Option.some.inj h)

/-- A maximal run: `takeWhile`/`dropWhile` over `l₁ ++ l₂` when every
element of `l₁` satisfies the class and the head of `l₂` (if any) does not —
exactly the shape a greedy regex run followed by an out-of-class character
takes. -/
theorem span_append (p : Char → Bool) (l₁ l₂ : List Char)
    (h1 : ∀ c ∈ l₁, p c = true) (h2 : ∀ c, l₂.head? = some c → p c = false) :
    (l₁ ++ l₂).takeWhile p = l₁ ∧ (l₁ ++ l₂).dropWhile p = l₂ := by
  constructor
  · rw [List.takeWhile_append_of_pos h1]
    cases l₂ with
    | nil => simp
    | cons c t =>
      rw [List.takeWhile_cons_of_neg]
      · simp
      · simp [h2 c rfl]
  · rw [List.dropWhile_append_of_pos h1]
    cases l₂ with
    | nil => simp
    | cons c t =>
      rw [List.dropWhile_cons_of_neg]
      simp [h2 c rfl]

/-- A run covering the whole rest of the subject. -/
theorem takeWhile_all (p : Char → Bool) (l : List Char)
    (h : ∀ c ∈ l, p c = true) : l.takeWhile p = l := by
  have := span_append p l [] h (by intro c hc; cases hc)
  simpa using this.1

/-- `pyStrip` ignores a leading space. -/
theorem pyStrip_cons_space (l : List Char) : pyStrip (' ' :: l) = pyStrip l := by
  unfold pyStrip
  rw [List.dropWhile_cons_of_pos]
  decide

/-- The splits of `l ++ ['"']` at a quote, when `l` itself is quote-free. -/
theorem quoteSplits_append_quote (l : List Char) (h : ∀ c ∈ l, c ≠ '"') :
    quoteSplits (l ++ ['"']) = [(l, [])] := by
  induction l with
  | nil => rfl
  | cons c t ih =>
    have hc : c ≠ '"' := h c (List.mem_cons_self c t)
    have ht : ∀ x ∈ t, x ≠ '"' := fun x hx => h x (List.mem_cons_of_mem c hx)
    rw [List.cons_append]
    simp only [quoteSplits, hc, if_neg]
    rw [ih ht]
    simp [hc]

theorem digit_not_space (c : Char) (h : c.isDigit = true) : isSpaceC c = false := by
  have h1 : c ≠ ' ' := fun e => absurd h (by subst e; decide)
  have h2 : c ≠ '\t' := fun e => absurd h (by subst e; decide)
  have h3 : c ≠ '\n' := fun e => absurd h (by subst e; decide)
  have h4 : c ≠ '\r' := fun e => absurd h (by subst e; decide)
  have h5 : c ≠ '\x0b' := fun e => absurd h (by subst e; decide)
  have h6 : c ≠ '\x0c' := fun e => absurd h (by subst e; decide)
  simp [isSpaceC, h1, h2, h3, h4, h5, h6]

theorem span_one (p : Char → Bool) (c : Char) (l : List Char) (hc : p c = true)
    (hl : ∀ d, l.head? = some d → p d = false) :
    (c :: l).takeWhile p = [c] ∧ (c :: l).dropWhile p = l := by
  have := span_append p [c] l (by intro x hx; simp at hx; subst hx; exact hc) hl
  simpa using this

theorem reqChar_self (c : Char) (t : List Char) : reqChar c (c :: t) = some t := by
  simp [reqChar]

theorem reqPred_cons (p : Char → Bool) (x : Char) (t : List Char) :
    reqPred p (x :: t) = if p x then some t else none := rfl

theorem take3_cons (a b c : Char) (r : List Char) :
    take3 (a :: b :: c :: r) = some (a, b, c, r) := rfl

/-- C5 helper: the timestamp group of the syslog pattern on a built
timestamp. -/
theorem syslogTs_built (m1 m2 m3 : Char) (day : List Char)
    (h1 h2 p1 p2 q1 q2 : Char) (rest : List Char)
    (hm : (m1.isAlpha && m2.isAlpha && m3.isAlpha) = true)
    (hdne : day ≠ []) (hdlen : day.length ≤ 2)
    (hdig : ∀ c ∈ day, c.isDigit = true)
    (ht : (h1.isDigit && h2.isDigit && p1.isDigit && p2.isDigit &&
      q1.isDigit && q2.isDigit) = true) :
    syslogTs (m1 :: m2 :: m3 :: ' ' :: (day ++ (' ' :: h1 :: h2 :: ':' :: p1 ::
        p2 :: ':' :: q1 :: q2 :: rest))) =
      some (m1 :: m2 :: m3 :: (' ' :: (day ++ (' ' ::
        [h1, h2, ':', p1, p2, ':', q1, q2]))), rest) := by
  obtain ⟨e1, e2, e3, e4, e5, e6⟩ : h1.isDigit = true ∧ h2.isDigit = true ∧
      p1.isDigit = true ∧ p2.isDigit = true ∧ q1.isDigit = true ∧
      q2.isDigit = true := by
    simpa [Bool.and_eq_true, and_assoc] using ht
  have hdhead : ∀ d, (day ++ ' ' :: h1 :: h2 :: ':' :: p1 :: p2 :: ':' :: q1 ::
      q2 :: rest).head? = some d → isSpaceC d = false := by
    cases day with
    | nil => exact absurd rfl hdne
    | cons d dt =>
      intro c hc
      simp only [List.cons_append, List.head?_cons, Option.some.injEq] at hc
      subst hc
      exact digit_not_space d (hdig d (List.mem_cons_self d dt))
  have s1 := span_one isSpaceC ' '
    (day ++ ' ' :: h1 :: h2 :: ':' :: p1 :: p2 :: ':' :: q1 :: q2 :: rest)
    (by decide) hdhead
  have s2 := span_append Char.isDigit day
    (' ' :: h1 :: h2 :: ':' :: p1 :: p2 :: ':' :: q1 :: q2 :: rest)
    hdig (by intro c hc; simp at hc; subst hc; decide)
  have s3 := span_one isSpaceC ' '
    (h1 :: h2 :: ':' :: p1 :: p2 :: ':' :: q1 :: q2 :: rest)
    (by decide) (by intro c hc; simp at hc; subst hc; exact digit_not_space h1 e1)
  have hdayE : day.isEmpty = false := by
    cases day
    · exact absurd rfl hdne
    · rfl
  have hd1 : 1 ≤ day.length := by
    cases day
    · exact absurd rfl hdne
    · simp
  have hshape : matchesShape shapeTime
      (h1 :: h2 :: ':' :: p1 :: p2 :: ':' :: q1 :: q2 :: rest) = true := by
    simp [matchesShape, shapeTime, e1, e2, e3, e4, e5, e6]
  simp only [syslogTs]
  rw [take3_cons]
  simp only [Option.some_bind, hm, s1.1, s1.2, s2.1, s2.2, s3.1, s3.2, hshape]
  simp [hdayE, hd1, hdlen]

/-- C5 helper: the syslog regex match on a well-formed built line. -/
theorem syslogMatch_built (priS : List Char) (m1 m2 m3 : Char) (day : List Char)
    (h1 h2 p1 p2 q1 q2 : Char) (host prog msg : List Char)
    (hpne : priS ≠ []) (hpdig : ∀ c ∈ priS, c.isDigit = true)
    (hm : (m1.isAlpha && m2.isAlpha && m3.isAlpha) = true)
    (hdne : day ≠ []) (hdlen : day.length ≤ 2)
    (hdig : ∀ c ∈ day, c.isDigit = true)
    (ht : (h1.isDigit && h2.isDigit && p1.isDigit && p2.isDigit &&
      q1.isDigit && q2.isDigit) = true)
    (hhne : host ≠ []) (hhsp : ∀ c ∈ host, isSpaceC c = false)
    (hgne : prog ≠ []) (hgsp : ∀ c ∈ prog, isSpaceC c = false)
    (hgcol : ∀ c ∈ prog, c ≠ ':')
    (hmsg : ∀ c ∈ msg, c ≠ '\n') :
    syslogMatch ('<' :: (priS ++ ('>' :: m1 :: m2 :: m3 :: ' ' ::
        (day ++ (' ' :: h1 :: h2 :: ':' :: p1 :: p2 :: ':' :: q1 :: q2 :: ' ' ::
          (host ++ (' ' :: (prog ++ (':' :: ' ' :: msg))))))))) =
      some (priS, m1 :: m2 :: m3 :: (' ' :: (day ++ (' ' ::
        [h1, h2, ':', p1, p2, ':', q1, q2]))), host, prog, ' ' :: msg) := by
  have hts := syslogTs_built m1 m2 m3 day h1 h2 p1 p2 q1 q2
    (' ' :: (host ++ (' ' :: (prog ++ (':' :: ' ' :: msg))))) hm hdne hdlen hdig ht
  have s0 := span_append Char.isDigit priS
    ('>' :: m1 :: m2 :: m3 :: ' ' ::
      (day ++ (' ' :: h1 :: h2 :: ':' :: p1 :: p2 :: ':' :: q1 :: q2 :: ' ' ::
        (host ++ (' ' :: (prog ++ (':' :: ' ' :: msg)))))))
    hpdig (by intro c hc; simp at hc; subst hc; decide)
  have hpE : priS.isEmpty = false := by
    cases priS
    · exact absurd rfl hpne
    · rfl
  have hhhd : ∀ d, (host ++ (' ' :: (prog ++ (':' :: ' ' :: msg)))).head? = some d →
      isSpaceC d = false := by
    cases host with
    | nil => exact absurd rfl hhne
    | cons x xs =>
      intro d hd
      simp only [List.cons_append, List.head?_cons, Option.some.injEq] at hd
      subst hd
      exact hhsp x (List.mem_cons_self x xs)
  have ssp := span_one isSpaceC ' '
    (host ++ (' ' :: (prog ++ (':' :: ' ' :: msg)))) (by decide) hhhd
  have shost := span_append (fun ch => !isSpaceC ch) host
    (' ' :: (prog ++ (':' :: ' ' :: msg)))
    (by intro c hc; simp [hhsp c hc])
    (by intro c hc; simp at hc; subst hc; decide)
  have hhE : host.isEmpty = false := by
    cases host
    · exact absurd rfl hhne
    · rfl
  have hghd : ∀ d, (prog ++ (':' :: ' ' :: msg)).head? = some d →
      isSpaceC d = false := by
    cases prog with
    | nil => exact absurd rfl hgne
    | cons x xs =>
      intro d hd
      simp only [List.cons_append, List.head?_cons, Option.some.injEq] at hd
      subst hd
      exact hgsp x (List.mem_cons_self x xs)
  have ssp2 := span_one isSpaceC ' ' (prog ++ (':' :: ' ' :: msg))
    (by decide) hghd
  have sprog := span_append (fun ch => !isSpaceC ch && ch ≠ ':') prog
    (':' :: ' ' :: msg)
    (by intro c hc; simp [hgsp c hc, hgcol c hc])
    (by intro c hc; simp at hc; subst hc; decide)
  have hgE : prog.isEmpty = false := by
    cases prog
    · exact absurd rfl hgne
    · rfl
  have tA : (' ' :: msg).takeWhile (fun c => c ≠ '\n') = ' ' :: msg := by
    apply takeWhile_all
    intro c hc
    rcases List.mem_cons.mp hc with rfl | hcm
    · decide
    · simp [hmsg c hcm]
  simp only [syslogMatch]
  rw [reqChar_self]
  simp only [Option.some_bind]
  rw [s0.1, s0.2]
  simp only [hpE, Bool.false_eq_true, if_false]
  rw [reqChar_self]
  simp only [Option.some_bind]
  rw [hts]
  simp only [Option.some_bind]
  rw [ssp.1, ssp.2, shost.1, shost.2]
  simp only [hhE]
  rw [ssp2.1, ssp2.2, sprog.1, sprog.2]
  simp only [hgE]
  rw [reqPred_cons]
  simp [tA, hgE, hhE]
  exact hmsg


/-- C5: round-trip — a syslog line built from known PRI, timestamp,
hostname, program and message parts, when parsed through the syslog parser,
yields `syslog_facility = int(PRI) // 8`, `syslog_severity = int(PRI) % 8`
(integers), `hostname` and `program` equal to the given parts, and
`parsed_message` equal to the original message stripped. -/
theorem c5_syslog_roundtrip (now : String) (priS : List Char) (m1 m2 m3 : Char)
    (day : List Char) (h1 h2 p1 p2 q1 q2 : Char) (host prog msg : List Char)
    (hpne : priS ≠ []) (hpdig : ∀ c ∈ priS, c.isDigit = true)
    (hm : (m1.isAlpha && m2.isAlpha && m3.isAlpha) = true)
    (hdne : day ≠ []) (hdlen : day.length ≤ 2)
    (hdig : ∀ c ∈ day, c.isDigit = true)
    (ht : (h1.isDigit && h2.isDigit && p1.isDigit && p2.isDigit &&
      q1.isDigit && q2.isDigit) = true)
    (hhne : host ≠ []) (hhsp : ∀ c ∈ host, isSpaceC c = false)
    (hgne : prog ≠ []) (hgsp : ∀ c ∈ prog, isSpaceC c = false)
    (hgcol : ∀ c ∈ prog, c ≠ ':')
    (hmsg : ∀ c ∈ msg, c ≠ '\n') :
    rget (SyslogParser.parse now
        [("message", vStr (String.mk (mkSyslogLine priS m1 m2 m3 day h1 h2 p1
          p2 q1 q2 host prog msg)))]) "syslog_facility" =
      some (vInt (strToNat priS / 8)) ∧
    rget (SyslogParser.parse now
        [("message", vStr (String.mk (mkSyslogLine priS m1 m2 m3 day h1 h2 p1
          p2 q1 q2 host prog msg)))]) "syslog_severity" =
      some (vInt (strToNat priS % 8)) ∧
    rget (SyslogParser.parse now
        [("message", vStr (String.mk (mkSyslogLine priS m1 m2 m3 day h1 h2 p1
          p2 q1 q2 host prog msg)))]) "hostname" =
      some (vStr (String.mk host)) ∧
    rget (SyslogParser.parse now
        [("message", vStr (String.mk (mkSyslogLine priS m1 m2 m3 day h1 h2 p1
          p2 q1 q2 host prog msg)))]) "program" =
      some (vStr (String.mk prog)) ∧
    rget (SyslogParser.parse now
        [("message", vStr (String.mk (mkSyslogLine priS m1 m2 m3 day h1 h2 p1
          p2 q1 q2 host prog msg)))]) "parsed_message" =
      some (vStr (String.mk (pyStrip msg))) := by
  have hmatch : syslogMatch (mkSyslogLine priS m1 m2 m3 day h1 h2 p1 p2 q1 q2
      host prog msg) =
      some (priS, m1 :: m2 :: m3 :: (' ' :: (day ++ (' ' ::
        [h1, h2, ':', p1, p2, ':', q1, q2]))), host, prog, ' ' :: msg) := by
    unfold mkSyslogLine
    exact syslogMatch_built priS m1 m2 m3 day h1 h2 p1 p2 q1 q2 host prog msg
      hpne hpdig hm hdne hdlen hdig ht hhne hhsp hgne hgsp hgcol hmsg
  have hgm : (getMessage [("message", vStr (String.mk (mkSyslogLine priS m1 m2
      m3 day h1 h2 p1 p2 q1 q2 host prog msg)))]).toList =
      mkSyslogLine priS m1 m2 m3 day h1 h2 p1 p2 q1 q2 host prog msg := rfl
  simp only [SyslogParser.parse, hgm, hmatch]
  rw [pyStrip_cons_space]
  refine ⟨?_, ?_, ?_, ?_, ?_⟩
  · rw [rget_rset_ne _ _ _ _ (by decide), rget_rset_ne _ _ _ _ (by decide),
      rget_rset_ne _ _ _ _ (by decide), rget_rset_ne _ _ _ _ (by decide),
      rget_rset_self]
  · rw [rget_rset_ne _ _ _ _ (by decide), rget_rset_ne _ _ _ _ (by decide),
      rget_rset_ne _ _ _ _ (by decide), rget_rset_self]
  · rw [rget_rset_ne _ _ _ _ (by decide), rget_rset_ne _ _ _ _ (by decide),
      rget_rset_self]
  · rw [rget_rset_ne _ _ _ _ (by decide), rget_rset_self]
  · rw [rget_rset_self]

/-- C5 witness: the round-trip at a concrete line. -/
theorem c5_syslog_roundtrip_witness :
    rget (SyslogParser.parse "NOW"
        [("message", vStr (String.mk (mkSyslogLine (String.toList "34")
          'A' 'u' 'g' (String.toList "20") '1' '7' '0' '2' '0' '1'
          (String.toList "server1") (String.toList "sshd")
          (String.toList "Failed password from 192.168.1.100"))))])
      "syslog_facility" = some (vInt (strToNat (String.toList "34") / 8)) ∧
    rget (SyslogParser.parse "NOW"
        [("message", vStr (String.mk (mkSyslogLine (String.toList "34")
          'A' 'u' 'g' (String.toList "20") '1' '7' '0' '2' '0' '1'
          (String.toList "server1") (String.toList "sshd")
          (String.toList "Failed password from 192.168.1.100"))))])
      "syslog_severity" = some (vInt (strToNat (String.toList "34") % 8)) ∧
    rget (SyslogParser.parse "NOW"
        [("message", vStr (String.mk (mkSyslogLine (String.toList "34")
          'A' 'u' 'g' (String.toList "20") '1' '7' '0' '2' '0' '1'
          (String.toList "server1") (String.toList "sshd")
          (String.toList "Failed password from 192.168.1.100"))))])
      "hostname" = some (vStr (String.mk (String.toList "server1"))) ∧
    rget (SyslogParser.parse "NOW"
        [("message", vStr (String.mk (mkSyslogLine (String.toList "34")
          'A' 'u' 'g' (String.toList "20") '1' '7' '0' '2' '0' '1'
          (String.toList "server1") (String.toList "sshd")
          (String.toList "Failed password from 192.168.1.100"))))])
      "program" = some (vStr (String.mk (String.toList "sshd"))) ∧
    rget (SyslogParser.parse "NOW"
        [("message", vStr (String.mk (mkSyslogLine (String.toList "34")
          'A' 'u' 'g' (String.toList "20") '1' '7' '0' '2' '0' '1'
          (String.toList "server1") (String.toList "sshd")
          (String.toList "Failed password from 192.168.1.100"))))])
      "parsed_message" =
      some (vStr (String.mk (pyStrip
        (String.toList "Failed password from 192.168.1.100")))) :=
  c5_syslog_roundtrip "NOW" (String.toList "34") 'A' 'u' 'g'
    (String.toList "20") '1' '7' '0' '2' '0' '1' (String.toList "server1")
    (String.toList "sshd") (String.toList "Failed password from 192.168.1.100")
    (by decide) (by decide) (by decide) (by decide) (by decide) (by decide)
    (by decide) (by decide) (by decide) (by decide) (by decide) (by decide)
    (by decide)


theorem fieldSp_built (f l : List Char) (hne : f ≠ [])
    (hsp : ∀ c ∈ f, isSpaceC c = false) :
    fieldSp (f ++ (' ' :: l)) = some (f, l) := by
  have sp := span_append (fun ch => !isSpaceC ch) f (' ' :: l)
    (by intro c hc; simp [hsp c hc])
    (by intro c hc; simp at hc; subst hc; decide)
  have hE : f.isEmpty = false := by
    cases f
    · exact absurd rfl hne
    · rfl
  simp only [fieldSp, sp.1, sp.2, hE, Bool.false_eq_true, if_false,
    reqChar_self, Option.map_some']

/-- C2 helper: the Common Log Format regex match on a well-formed built
line. -/
theorem webMatch_built (ip id2 au ts method url proto status size : List Char)
    (hip : ip ≠ []) (hips : ∀ c ∈ ip, isSpaceC c = false)
    (hid : id2 ≠ []) (hids : ∀ c ∈ id2, isSpaceC c = false)
    (hau : au ≠ []) (haus : ∀ c ∈ au, isSpaceC c = false)
    (hts : ts ≠ []) (htsc : ∀ c ∈ ts, c ≠ ']')
    (hme : method ≠ []) (hmes : ∀ c ∈ method, isSpaceC c = false)
    (hur : url ≠ []) (hurs : ∀ c ∈ url, isSpaceC c = false)
    (hpr : proto ≠ []) (hprs : ∀ c ∈ proto, isSpaceC c = false)
    (hprq : ∀ c ∈ proto, c ≠ '"')
    (hst : status ≠ []) (hstd : ∀ c ∈ status, c.isDigit = true)
    (hsz : size ≠ []) (hszs : ∀ c ∈ size, isSpaceC c = false) :
    webMatch (mkWebLine ip id2 au ts method url proto status size) =
      some (ip, ts, method, url, proto, status, size) := by
  have hS := span_append (fun c => c ≠ ']') ts
    (']' :: ' ' :: '"' :: (method ++ (' ' :: (url ++ (' ' ::
      (proto ++ ('"' :: ' ' :: (status ++ (' ' :: size)))))))))
    (by intro c hc; simp [htsc c hc])
    (by intro c hc; simp at hc; subst hc; decide)
  have htsE : ts.isEmpty = false := by
    cases ts
    · exact absurd rfl hts
    · rfl
  have hrun := span_append (fun ch => !isSpaceC ch) (proto ++ ['"'])
    (' ' :: (status ++ (' ' :: size)))
    (by
      intro c hc
      rcases List.mem_append.mp hc with h | h
      · simp [hprs c h]
      · simp at h; subst h; decide)
    (by intro c hc; simp at hc; subst hc; decide)
  rw [List.append_assoc] at hrun
  simp only [List.singleton_append] at hrun
  have hq := quoteSplits_append_quote proto hprq
  have hprE : proto.isEmpty = false := by
    cases proto
    · exact absurd rfl hpr
    · rfl
  have hstS := span_append Char.isDigit status (' ' :: size) hstd
    (by intro c hc; simp at hc; subst hc; decide)
  have hstE : status.isEmpty = false := by
    cases status
    · exact absurd rfl hst
    · rfl
  have hszA : size.takeWhile (fun ch => !isSpaceC ch) = size := by
    apply takeWhile_all
    intro c hc
    simp [hszs c hc]
  have hszE : size.isEmpty = false := by
    cases size
    · exact absurd rfl hsz
    · rfl
  have hwt : webTail (' ' :: (status ++ (' ' :: size))) = some (status, size) := by
    simp only [webTail, reqChar_self, Option.some_bind, hstS.1, hstS.2, hstE,
      Bool.false_eq_true, if_false, hszA, hszE]
  simp only [mkWebLine, webMatch]
  rw [fieldSp_built ip _ hip hips]
  simp only [Option.some_bind]
  rw [fieldSp_built id2 _ hid hids]
  simp only [Option.some_bind]
  rw [fieldSp_built au _ hau haus]
  simp only [Option.some_bind]
  rw [reqChar_self]
  simp only [Option.some_bind]
  rw [hS.1, hS.2]
  simp only [htsE, Bool.false_eq_true, if_false]
  rw [reqChar_self]
  simp only [Option.some_bind]
  rw [reqChar_self]
  simp only [Option.some_bind]
  rw [reqChar_self]
  simp only [Option.some_bind]
  rw [fieldSp_built method _ hme hmes]
  simp only [Option.some_bind]
  rw [fieldSp_built url _ hur hurs]
  simp only [Option.some_bind]
  rw [hrun.1, hrun.2, hq]
  simp [List.findSome?, hprE, hwt]

/-- C2 amended: for every Common Log Format line built from well-formed
field values, the web parser sets `client_ip`, `http_method`, `url` and
`http_protocol` from the grammar fields and `status_code` to the integer
value of the status field; `response_size`, however, is the *string* value
of the size field when it is not the placeholder `-`, and the integer 0
when it is (`size if size != '-' else 0`). -/
theorem c2_web_fields (now : String)
    (ip id2 au ts method url proto status size : List Char)
    (hip : ip ≠ []) (hips : ∀ c ∈ ip, isSpaceC c = false)
    (hid : id2 ≠ []) (hids : ∀ c ∈ id2, isSpaceC c = false)
    (hau : au ≠ []) (haus : ∀ c ∈ au, isSpaceC c = false)
    (hts : ts ≠ []) (htsc : ∀ c ∈ ts, c ≠ ']')
    (hme : method ≠ []) (hmes : ∀ c ∈ method, isSpaceC c = false)
    (hur : url ≠ []) (hurs : ∀ c ∈ url, isSpaceC c = false)
    (hpr : proto ≠ []) (hprs : ∀ c ∈ proto, isSpaceC c = false)
    (hprq : ∀ c ∈ proto, c ≠ '"')
    (hst : status ≠ []) (hstd : ∀ c ∈ status, c.isDigit = true)
    (hsz : size ≠ []) (hszs : ∀ c ∈ size, isSpaceC c = false) :
    rget (WebLogParser.parse now
        [("message", vStr (String.mk (mkWebLine ip id2 au ts method url proto
          status size)))]) "client_ip" = some (vStr (String.mk ip)) ∧
    rget (WebLogParser.parse now
        [("message", vStr (String.mk (mkWebLine ip id2 au ts method url proto
          status size)))]) "http_method" = some (vStr (String.mk method)) ∧
    rget (WebLogParser.parse now
        [("message", vStr (String.mk (mkWebLine ip id2 au ts method url proto
          status size)))]) "url" = some (vStr (String.mk url)) ∧
    rget (WebLogParser.parse now
        [("message", vStr (String.mk (mkWebLine ip id2 au ts method url proto
          status size)))]) "http_protocol" = some (vStr (String.mk proto)) ∧
    rget (WebLogParser.parse now
        [("message", vStr (String.mk (mkWebLine ip id2 au ts method url proto
          status size)))]) "status_code" = some (vInt (strToNat status)) ∧
    rget (WebLogParser.parse now
        [("message", vStr (String.mk (mkWebLine ip id2 au ts method url proto
          status size)))]) "response_size" =
      some (if String.mk size ≠ "-" then vStr (String.mk size) else vInt 0) := by
  have hmatch := webMatch_built ip id2 au ts method url proto status size
    hip hips hid hids hau haus hts htsc hme hmes hur hurs hpr hprs hprq
    hst hstd hsz hszs
  have hgm : (getMessage [("message", vStr (String.mk (mkWebLine ip id2 au ts
      method url proto status size)))]).toList =
      mkWebLine ip id2 au ts method url proto status size := rfl
  simp only [WebLogParser.parse, hgm, hmatch]
  refine ⟨?_, ?_, ?_, ?_, ?_, ?_⟩
  · rw [rget_rset_ne _ _ _ _ (by decide), rget_rset_ne _ _ _ _ (by decide),
      rget_rset_ne _ _ _ _ (by decide), rget_rset_ne _ _ _ _ (by decide),
      rget_rset_ne _ _ _ _ (by decide), rget_rset_self]
  · rw [rget_rset_ne _ _ _ _ (by decide), rget_rset_ne _ _ _ _ (by decide),
      rget_rset_ne _ _ _ _ (by decide), rget_rset_ne _ _ _ _ (by decide),
      rget_rset_self]
  · rw [rget_rset_ne _ _ _ _ (by decide), rget_rset_ne _ _ _ _ (by decide),
      rget_rset_ne _ _ _ _ (by decide), rget_rset_self]
  · rw [rget_rset_ne _ _ _ _ (by decide), rget_rset_ne _ _ _ _ (by decide),
      rget_rset_self]
  · rw [rget_rset_ne _ _ _ _ (by decide), rget_rset_self]
  · rw [rget_rset_self]

/-- C2 witness: the spec scenario line (with placeholder size `-`). -/
theorem c2_web_fields_witness :
    rget (WebLogParser.parse "NOW"
        [("message", vStr (String.mk (mkWebLine (String.toList "127.0.0.1")
          (String.toList "-") (String.toList "-")
          (String.toList "10/Oct/2020:13:55:36") (String.toList "GET")
          (String.toList "/index.html") (String.toList "HTTP/1.0")
          (String.toList "200") (String.toList "-"))))])
      "client_ip" = some (vStr (String.mk (String.toList "127.0.0.1"))) ∧
    rget (WebLogParser.parse "NOW"
        [("message", vStr (String.mk (mkWebLine (String.toList "127.0.0.1")
          (String.toList "-") (String.toList "-")
          (String.toList "10/Oct/2020:13:55:36") (String.toList "GET")
          (String.toList "/index.html") (String.toList "HTTP/1.0")
          (String.toList "200") (String.toList "-"))))])
      "http_method" = some (vStr (String.mk (String.toList "GET"))) ∧
    rget (WebLogParser.parse "NOW"
        [("message", vStr (String.mk (mkWebLine (String.toList "127.0.0.1")
          (String.toList "-") (String.toList "-")
          (String.toList "10/Oct/2020:13:55:36") (String.toList "GET")
          (String.toList "/index.html") (String.toList "HTTP/1.0")
          (String.toList "200") (String.toList "-"))))])
      "url" = some (vStr (String.mk (String.toList "/index.html"))) ∧
    rget (WebLogParser.parse "NOW"
        [("message", vStr (String.mk (mkWebLine (String.toList "127.0.0.1")
          (String.toList "-") (String.toList "-")
          (String.toList "10/Oct/2020:13:55:36") (String.toList "GET")
          (String.toList "/index.html") (String.toList "HTTP/1.0")
          (String.toList "200") (String.toList "-"))))])
      "http_protocol" = some (vStr (String.mk (String.toList "HTTP/1.0"))) ∧
    rget (WebLogParser.parse "NOW"
        [("message", vStr (String.mk (mkWebLine (String.toList "127.0.0.1")
          (String.toList "-") (String.toList "-")
          (String.toList "10/Oct/2020:13:55:36") (String.toList "GET")
          (String.toList "/index.html") (String.toList "HTTP/1.0")
          (String.toList "200") (String.toList "-"))))])
      "status_code" = some (vInt (strToNat (String.toList "200"))) ∧
    rget (WebLogParser.parse "NOW"
        [("message", vStr (String.mk (mkWebLine (String.toList "127.0.0.1")
          (String.toList "-") (String.toList "-")
          (String.toList "10/Oct/2020:13:55:36") (String.toList "GET")
          (String.toList "/index.html") (String.toList "HTTP/1.0")
          (String.toList "200") (String.toList "-"))))])
      "response_size" =
      some (if String.mk (String.toList "-") ≠ "-"
        then vStr (String.mk (String.toList "-")) else vInt 0) :=
  c2_web_fields "NOW" (String.toList "127.0.0.1") (String.toList "-")
    (String.toList "-") (String.toList "10/Oct/2020:13:55:36")
    (String.toList "GET") (String.toList "/index.html")
    (String.toList "HTTP/1.0") (String.toList "200") (String.toList "-")
    (by decide) (by decide) (by decide) (by decide) (by decide) (by decide)
    (by decide) (by decide) (by decide) (by decide) (by decide) (by decide)
    (by decide) (by decide) (by decide) (by decide) (by decide) (by decide)
    (by decide)
